import Mathlib

/-!
Verification of the VesselProject relay server (src/server/app.py) against its
natural-language specification.  The relevant Python functions are shallowly
embedded as executable Lean definitions; timestamps and SOL amounts (Python
floats holding short decimals) are modelled as rationals, HMAC-SHA256 with the
loaded spawn secret is modelled as an abstract keyed function
`hmac : String → String`.
-/

namespace Vessel

/-! ## Constants (src/server/app.py lines 40-67, 254-301, 789-790) -/

/-- AGENT_WHITELIST (app.py line 283). -/
def AGENT_WHITELIST : List String :=
  ["MsWednesday", "CP0", "CP1", "CP9", "msSunday", "msCounsel", "Chopper"]

/-- Keys of AGENT_GATE_WORKSPACES (app.py lines 41-51); values are disk paths,
only key membership matters for the verifier. -/
def AGENT_GATE_WORKSPACES : List String :=
  ["MsSunday", "msSunday", "cp1", "CP9", "cp0", "CP0", "CP1", "msCounsel", "Chopper"]

/-- RATE_LIMIT_TRADES_MAX (app.py line 64). -/
def RATE_LIMIT_TRADES_MAX : Nat := 5

/-- RATE_LIMIT_TRADES_WINDOW in seconds (app.py line 65). -/
def RATE_LIMIT_TRADES_WINDOW : ℚ := 60

/-- AGENT_GAS_SOL = 0.01 (app.py line 258). -/
def AGENT_GAS_SOL : ℚ := 1/100

/-- MIN_RETURNABLE = 0.002 (app.py line 259). -/
def MIN_RETURNABLE : ℚ := 1/500

/-- DUST_GAS_THRESHOLD = 0.003 (app.py line 789). -/
def DUST_GAS_THRESHOLD : ℚ := 3/1000

/-- DUST_USD_THRESHOLD = 0.50 (app.py line 790). -/
def DUST_USD_THRESHOLD : ℚ := 1/2

/-! ## Gate verifier (app.py lines 130-206, `_verify_agent_gate`)

A parsed `.spawn_gate` file.  The Python code loads JSON and checks that the
five required fields are present; a missing field, unreadable file or parse
error is modelled as `Option.none`.  `timestamp` and `expires_at` are ISO
datetimes in the source; they are modelled as integers (epoch seconds), with
`tsRepr`/`expRepr` carrying the exact strings that enter the HMAC message. -/

structure GateFile where
  authorized_by : String
  agent : String
  tsRepr : String
  expRepr : String
  expires_at : Int
  signature : String
  deriving DecidableEq, Repr

/-- The HMAC input `f"{data['agent']}|{data['timestamp']}|{data['expires_at']}"`
(app.py line 196). -/
def gateMessage (d : GateFile) : String :=
  d.agent ++ "|" ++ d.tsRepr ++ "|" ++ d.expRepr

/-- `_verify_agent_gate` (app.py lines 130-206), full-verification path.
The 60-second mtime-keyed cache (lines 156-167) only replays a decision this
function previously computed and is not modelled.  `secretLoaded` is
`bool(_spawn_secret)`, `hmac` is HMAC-SHA256 keyed with the spawn secret,
`gate` is the parsed gate file (`none` when absent/invalid JSON/missing
fields), `now` is `datetime.now()`. -/
def verify_agent_gate (secretLoaded : Bool) (hmac : String → String)
    (agent_name : String) (gate : Option GateFile) (now : Int) : Bool :=
  if agent_name = "MsWednesday" then true
  else if !secretLoaded then false
  else if !(AGENT_GATE_WORKSPACES.contains agent_name) then false
  else
    match gate with
    | none => false
    | some d =>
      if d.authorized_by ≠ "MsWednesday" then false
      else if d.expires_at < now then false
      else hmac (gateMessage d) == d.signature

/-- The gate-verification environment a request executes in: whether the spawn
secret loaded, the keyed MAC, the gate file on disk for each agent, and the
current time. -/
structure GateEnv where
  secretLoaded : Bool
  hmac : String → String
  gates : String → Option GateFile
  now : Int

/-- `_verify_agent_gate(agent)` in environment `e`. -/
def GateEnv.verify (e : GateEnv) (agent_name : String) : Bool :=
  verify_agent_gate e.secretLoaded e.hmac agent_name (e.gates agent_name) e.now

/-! ## Rate limiter (app.py lines 70-107) -/

/-- Result of `_rate_limit_check`: the returned boolean plus the mutated
`bucket[agent_name]` list. -/
structure RateCheckOut where
  allowed : Bool
  bucket : List ℚ
  deriving DecidableEq, Repr

/-- `_rate_limit_check` (app.py lines 70-95) for one agent's bucket:
prune entries with `ts > now - window`, reject when the pruned length is at
the cap (without appending), else append `now`. -/
def rate_limit_check (bucket : List ℚ) (maxRequests : Nat) (window : ℚ)
    (now : ℚ) : RateCheckOut :=
  let pruned := bucket.filter (fun ts => decide (now - window < ts))
  if maxRequests ≤ pruned.length then ⟨false, pruned⟩
  else ⟨true, pruned ++ [now]⟩

/-- Result of `_check_trade_rate_limit`: `admitted = false` models
`HTTPException(429)` being raised. -/
structure TradeCheckOut where
  admitted : Bool
  bucket : List ℚ
  deriving DecidableEq, Repr

/-- `_check_trade_rate_limit` (app.py lines 98-107): MsWednesday is exempt,
otherwise run the sliding-window check with the trade limits. -/
def check_trade_rate_limit (agent_name : String) (bucket : List ℚ)
    (now : ℚ) : TradeCheckOut :=
  if agent_name = "MsWednesday" then ⟨true, bucket⟩
  else
    let r := rate_limit_check bucket RATE_LIMIT_TRADES_MAX RATE_LIMIT_TRADES_WINDOW now
    ⟨r.allowed, r.bucket⟩

/-! ## Post-sell capital flow (app.py lines 705-909)

The engine's external calls (holdings probe, DexScreener pricing, SOL
transfer, release) are modelled by passing their answers in: `Holdings`
carries the probe response with each token's DexScreener valuation
(`usd_value = none` when the price check failed), `transferOk` is
`result.get('success')` of the `_auto_return_sol` call and `releaseOk` the
return value of `_auto_release_agent`.  The output is the ordered list of
side-effecting calls the engine makes. -/

structure TokenHolding where
  mint : String
  ui_amount : ℚ
  usd_value : Option ℚ
  deriving DecidableEq, Repr

structure Holdings where
  success : Bool
  sol_balance : ℚ
  tokens : List TokenHolding
  deriving DecidableEq, Repr

/-- An externally visible action of the capital-flow engine. -/
inductive CFAction where
  | notify (tag : String)
  | transferSol (from_agent to_agent : String) (amount : Option ℚ)
  | release (agent : String)
  deriving DecidableEq, Repr

/-- The pricing loop of `_handle_post_sell_capital_flow` (app.py lines
849-857): sum the USD value of every positive-amount token, aborting with
`none` on the first failed price check (`price_failed`). -/
def total_usd_of : List TokenHolding → Option ℚ
  | [] => some 0
  | t :: rest =>
    if 0 < t.ui_amount then
      match t.usd_value with
      | none => none
      | some v => Option.map (fun r => v + r) (total_usd_of rest)
    else total_usd_of rest

/-- Dust classification (app.py lines 836-880): returns the final
`has_tokens` flag and the operator notifications the block emits. -/
def dust_classify (sell_percent : ℚ) (sol_balance : ℚ)
    (tokens : List TokenHolding) : Bool × List CFAction :=
  let raw_has_tokens := tokens.any (fun t => decide (0 < t.ui_amount))
  if raw_has_tokens then
    if 100 ≤ sell_percent then (false, [])
    else if sol_balance < DUST_GAS_THRESHOLD then
      match total_usd_of tokens with
      | none => (true, [.notify "stuck_cannot_price"])
      | some total =>
        if total < DUST_USD_THRESHOLD then (false, [])
        else (true, [.notify "stuck_tokens_no_gas"])
    else (true, [])
  else (false, [])

/-- `round(x, 9)` (app.py line 886).  On rationals this is rounding to nine
decimal places; every amount below is exact at nine places, so it is the
identity there. -/
def round9 (x : ℚ) : ℚ := (round (x * 1000000000) : ℚ) / 1000000000

/-- `_handle_post_sell_capital_flow` (app.py lines 810-909) as the ordered
list of external calls it performs.  Note line 884 subtracts the literal
`0.002` (= `1/500`) as the tx-fee buffer on top of the `AGENT_GAS_SOL`
reserve. -/
def handle_post_sell_capital_flow (agent_name : String) (sell_percent : ℚ)
    (apiTokenLoaded : Bool) (holdings : Holdings) (transferOk releaseOk : Bool) :
    List CFAction :=
  if agent_name = "MsWednesday" then []
  else if !apiTokenLoaded then []
  else if !holdings.success then []
  else
    let sol_balance := holdings.sol_balance
    let c := dust_classify sell_percent sol_balance holdings.tokens
    c.2 ++
      (if c.1 then
        let returnable := sol_balance - AGENT_GAS_SOL - 1/500
        if MIN_RETURNABLE < returnable then
          CFAction.transferSol agent_name "MsWednesday" (some (round9 returnable)) ::
            (if transferOk then [.notify "auto_return_keep_gas"] else [])
        else []
      else
        (if MIN_RETURNABLE < sol_balance then
          CFAction.transferSol agent_name "MsWednesday" none ::
            (if transferOk then [.notify "auto_return_final"] else [])
        else []) ++
        (CFAction.release agent_name ::
          (if releaseOk then [.notify "agent_released"] else [])))

/-! ## Input validation and write-endpoint admission (app.py lines 280, 402-447, 1039-1894)

Each proxy endpoint is modelled by its guard chain: the decision of whether
the request reaches the upstream SXAN call, or is rejected with which HTTP
status.  `verify_token` (relay auth) is a boolean input; the requester comes
from `get_requester` (already `none` when absent or not whitelisted). -/

/-- One character of the base58 alphabet used by SOLANA_ADDR_RE
(app.py line 280): `[1-9A-HJ-NP-Za-km-z]`. -/
def isBase58Char (c : Char) : Bool :=
  (('1' ≤ c && c ≤ '9') ||
   ('A' ≤ c && c ≤ 'H') || ('J' ≤ c && c ≤ 'N') || ('P' ≤ c && c ≤ 'Z') ||
   ('a' ≤ c && c ≤ 'k') || ('m' ≤ c && c ≤ 'z'))

/-- `SOLANA_ADDR_RE.match(s)`: base58-shaped, length 32-44. -/
def solanaAddrOk (s : String) : Bool :=
  32 ≤ s.length && s.length ≤ 44 && s.toList.all isBase58Char

/-- `_check_agent_authorization` (app.py lines 420-437): passes unless a
recognized non-apex requester targets another agent's wallet. -/
def check_agent_authorization (requester : Option String)
    (target_agent : String) : Bool :=
  if requester = some "MsWednesday" then true
  else
    match requester with
    | none => true
    | some r => r = target_agent

/-- `_gate_check_or_403` (app.py lines 209-243) as a boolean: apex targets and
apex requesters are exempt, otherwise the worker's gate must verify. -/
def gate_check_or_403 (env : GateEnv) (agent_name : String)
    (requester : Option String) : Bool :=
  if agent_name = "MsWednesday" then true
  else if requester = some "MsWednesday" then true
  else env.verify agent_name

/-- Outcome of an endpoint's guard chain: the request is forwarded upstream,
or rejected with an HTTP status code. -/
inductive Admission where
  | admitted
  | rejected (code : Nat)
  deriving DecidableEq, Repr

/-- Guard chain of `POST /execute/sell` (app.py lines 1046-1082). -/
def sell_admission (env : GateEnv) (tokenOk : Bool) (requester : Option String)
    (agent_name token_mint : String) (percent : ℚ) (slippage_bps : Int)
    (apiTokenLoaded : Bool) (bucket : List ℚ) (now : ℚ) : Admission :=
  if !tokenOk then .rejected 401
  else if !(AGENT_WHITELIST.contains agent_name) then .rejected 403
  else if !(solanaAddrOk token_mint) then .rejected 400
  else if !(0 < percent && percent ≤ 100) then .rejected 400
  else if !(1 ≤ slippage_bps && slippage_bps ≤ 500) then .rejected 400
  else if !apiTokenLoaded then .rejected 500
  else if !(check_trade_rate_limit agent_name bucket now).admitted then .rejected 429
  else if !(check_agent_authorization requester agent_name) then .rejected 403
  else if !(gate_check_or_403 env agent_name requester) then .rejected 403
  else .admitted

/-- Guard chain of `POST /execute/buy` (app.py lines 1135-1171). -/
def buy_admission (env : GateEnv) (tokenOk : Bool) (requester : Option String)
    (agent_name token_mint : String) (amount_sol : ℚ) (slippage_bps : Int)
    (apiTokenLoaded : Bool) (bucket : List ℚ) (now : ℚ) : Admission :=
  if !tokenOk then .rejected 401
  else if !(AGENT_WHITELIST.contains agent_name) then .rejected 403
  else if !(solanaAddrOk token_mint) then .rejected 400
  else if !(0 < amount_sol && amount_sol ≤ 1) then .rejected 400
  else if !(1 ≤ slippage_bps && slippage_bps ≤ 500) then .rejected 400
  else if !apiTokenLoaded then .rejected 500
  else if !(check_trade_rate_limit agent_name bucket now).admitted then .rejected 429
  else if !(check_agent_authorization requester agent_name) then .rejected 403
  else if !(gate_check_or_403 env agent_name requester) then .rejected 403
  else .admitted

/-- Guard chain of `POST /execute/transfer` (app.py lines 1219-1259). -/
def transfer_admission (env : GateEnv) (tokenOk : Bool) (requester : Option String)
    (from_agent to_agent token_mint : String) (amount : Option ℚ) (percent : Int)
    (apiTokenLoaded : Bool) (bucket : List ℚ) (now : ℚ) : Admission :=
  if !tokenOk then .rejected 401
  else if !(AGENT_WHITELIST.contains from_agent) then .rejected 403
  else if !(AGENT_WHITELIST.contains to_agent) then .rejected 403
  else if !(solanaAddrOk token_mint) then .rejected 400
  else if !(1 ≤ percent && percent ≤ 100) then .rejected 400
  else if (match amount with | some a => decide (a ≤ 0) | none => false) then .rejected 400
  else if !apiTokenLoaded then .rejected 500
  else if !(check_trade_rate_limit from_agent bucket now).admitted then .rejected 429
  else if !(check_agent_authorization requester from_agent) then .rejected 403
  else if !(gate_check_or_403 env from_agent requester) then .rejected 403
  else .admitted

/-- Guard chain of `POST /execute/transfer-sol` (app.py lines 1831-1857). -/
def transfer_sol_admission (env : GateEnv) (tokenOk : Bool) (requester : Option String)
    (from_agent to_agent : String) (amount_sol : Option ℚ)
    (apiTokenLoaded : Bool) (bucket : List ℚ) (now : ℚ) : Admission :=
  if !tokenOk then .rejected 401
  else if !(AGENT_WHITELIST.contains from_agent) then .rejected 403
  else if !(AGENT_WHITELIST.contains to_agent) then .rejected 403
  else if (match amount_sol with | some a => decide (a ≤ 0) | none => false) then .rejected 400
  else if !apiTokenLoaded then .rejected 500
  else if !(check_trade_rate_limit from_agent bucket now).admitted then .rejected 429
  else if !(check_agent_authorization requester from_agent) then .rejected 403
  else if !(gate_check_or_403 env from_agent requester) then .rejected 403
  else .admitted

/-! ## Relay state: availability registry, agent sessions, task store

One state value bundles the module-level mutable state of app.py:
`agent_availability.json` (`_read_availability`/`_write_availability`),
`_agent_sessions`, the in-memory `tasks` dict, the SQLite `tasks` table
(written only by `save_task`), and the per-vessel `task_queue` (modelled for
the single vessel the endpoints use). -/

/-- One value of the availability map (app.py lines 499-504):
`{status, position, assigned_at, type, last_checkin}`; `busy` is
`status == "busy"`.  ISO timestamps are modelled as rationals. -/
structure AgentEntry where
  busy : Bool
  position : Option String
  assigned_at : Option ℚ
  atype : Option String
  last_checkin : Option ℚ
  deriving DecidableEq, Repr

/-- The released/initial entry: `status idle`, all other fields null. -/
def idleEntry : AgentEntry := ⟨false, none, none, none, none⟩

/-- One `_agent_sessions` record (app.py lines 2254-2265, 2382-2395). -/
structure Session where
  sid : Nat
  agent_name : String
  job_type : String
  task_id : Option Nat
  vessel_id : String
  mode : String
  started_at : ℚ
  status : String
  completed_at : Option ℚ
  result : Option String
  deriving DecidableEq, Repr

/-- One task record (app.py lines 920-931, 2226-2244); `payload` is opaque. -/
structure TaskRec where
  vessel_id : String
  task_type : String
  payload : String
  priority : Int
  timeout : ℚ
  status : String
  submitted_at : ℚ
  completed_at : Option ℚ
  result : Option String
  deriving DecidableEq, Repr

/-- The relay's mutable state. -/
structure RelayState where
  agents : List (String × AgentEntry)
  sessions : List Session
  tasksMem : List (Nat × TaskRec)
  tasksDb : List (Nat × TaskRec)
  queue : List Nat
  deriving DecidableEq, Repr

/-- Dictionary lookup on the availability map. -/
def lookupAgent (A : List (String × AgentEntry)) (name : String) : Option AgentEntry :=
  (A.find? (fun p => p.1 == name)).map Prod.snd

/-- `agents[name].get("status") == "busy"` with absent keys not busy
(app.py line 2191). -/
def agentBusy (st : RelayState) (name : String) : Bool :=
  ((lookupAgent st.agents name).map (·.busy)).getD false

/-- Update the value stored under an existing key (no-op when absent). -/
def setAgent (A : List (String × AgentEntry)) (name : String)
    (f : AgentEntry → AgentEntry) : List (String × AgentEntry) :=
  A.map (fun p => if p.1 = name then (p.1, f p.2) else p)

/-- Release every listed worker that is tracked (used by the sweeps, which
call `_auto_release_agent` once per affected owner). -/
def releaseNames (A : List (String × AgentEntry)) (names : List String) :
    List (String × AgentEntry) :=
  A.map (fun p => if names.contains p.1 then (p.1, idleEntry) else p)

/-- `_auto_release_agent` (app.py lines 757-773): reset the tracked agent's
entry to idle; untracked agents are left alone. -/
def auto_release (A : List (String × AgentEntry)) (name : String) :
    List (String × AgentEntry) :=
  setAgent A name (fun _ => idleEntry)

/-- `agent_type_map.get(job_type, "trader")` (app.py lines 2288-2303). -/
def agent_type_of (job_type : String) : String :=
  if job_type = "scanner" then "scanner"
  else if job_type = "trader" then "trader"
  else if job_type = "manager" then "manager"
  else if job_type = "health" || job_type = "health_monitor" then "health"
  else if job_type = "content_manager" || job_type = "news_reporter" then "content_manager"
  else if job_type = "compliance_counsel" || job_type = "compliance" then "compliance_counsel"
  else if job_type = "scout" || job_type = "vessel_scout" || job_type = "intelligence_scout" then "scout"
  else "trader"

/-- The field updates `_mark_agent_busy` applies to an entry (app.py lines
2306-2316): non-manager spawns keep a pre-existing `last_checkin`. -/
def busyUpdate (token_mint : Option String) (avail_type : String) (now : ℚ)
    (e : AgentEntry) : AgentEntry :=
  { busy := true, position := token_mint, assigned_at := some now,
    atype := some avail_type,
    last_checkin := if avail_type = "manager" then some now else e.last_checkin }

/-- `_mark_agent_busy` (app.py lines 2286-2317): insert a default entry when
the agent is untracked, then apply the busy update. -/
def markAgentBusy (A : List (String × AgentEntry)) (name : String)
    (token_mint : Option String) (avail_type : String) (now : ℚ) :
    List (String × AgentEntry) :=
  if A.any (fun p => p.1 == name) then
    setAgent A name (busyUpdate token_mint avail_type now)
  else A ++ [(name, busyUpdate token_mint avail_type now idleEntry)]

/-- `_agent_sessions.get(sid)`. -/
def lookupSession (l : List Session) (sid : Nat) : Option Session :=
  l.find? (fun s => s.sid == sid)

/-- Update the session stored under a session id. -/
def updSession (l : List Session) (sid : Nat) (f : Session → Session) : List Session :=
  l.map (fun s => if s.sid = sid then f s else s)

/-- Number of running sessions registered for worker `w`. -/
def runningCount (st : RelayState) (w : String) : Nat :=
  st.sessions.countP (fun s => s.agent_name == w && s.status == "running")

/-- Task-dict lookup. -/
def lookupTask (l : List (Nat × TaskRec)) (k : Nat) : Option TaskRec :=
  (l.find? (fun p => p.1 == k)).map Prod.snd

/-- Update the record stored under an existing task id. -/
def mapTask (l : List (Nat × TaskRec)) (k : Nat) (f : TaskRec → TaskRec) :
    List (Nat × TaskRec) :=
  l.map (fun p => if p.1 = k then (p.1, f p.2) else p)

/-- `INSERT OR REPLACE` of `save_task` (app.py lines 329-350). -/
def upsertTask (l : List (Nat × TaskRec)) (k : Nat) (v : TaskRec) :
    List (Nat × TaskRec) :=
  if l.any (fun p => p.1 == k) then l.map (fun p => if p.1 = k then (k, v) else p)
  else l ++ [(k, v)]

/-- Response of an endpoint: an `HTTPException`/error response, or a JSON
reply whose `success` field is recorded. -/
inductive EndpointResp where
  | httpError (code : Nat)
  | reply (success : Bool)
  deriving DecidableEq, Repr

/-- `POST /agents/release` = `release_agent` (app.py lines 1737-1785).
Requires only the relay token, whitelist membership and a tracked agent;
there is no requester or gate check.  On success the entry is reset to idle;
sessions are untouched. -/
def release_agent (tokenOk : Bool) (_requester : Option String)
    (agent_name : String) (st : RelayState) : EndpointResp × RelayState :=
  if !tokenOk then (.httpError 401, st)
  else if !(AGENT_WHITELIST.contains agent_name) then (.httpError 403, st)
  else if !(st.agents.any (fun p => p.1 == agent_name)) then (.httpError 404, st)
  else (.reply true, { st with agents := setAgent st.agents agent_name (fun _ => idleEntry) })

/-- `POST /agents/checkin` = `agent_checkin` (app.py lines 1788-1822):
refresh `last_checkin` of a tracked manager-typed agent.  No requester or
gate check. -/
def agent_checkin (tokenOk : Bool) (agent_name : String) (now : ℚ)
    (st : RelayState) : EndpointResp × RelayState :=
  if !tokenOk then (.httpError 401, st)
  else if !(AGENT_WHITELIST.contains agent_name) then (.httpError 403, st)
  else
    match lookupAgent st.agents agent_name with
    | none => (.httpError 404, st)
    | some e =>
      if e.atype ≠ some "manager" then (.reply false, st)
      else (.reply true,
        { st with agents :=
            (setAgent st.agents agent_name
              (fun a => { a with last_checkin := some now })) })

/-- `POST /trade-manager` = `set_trade_manager` (app.py lines 1628-1678):
invalid token → 401, worker not whitelisted → 403; otherwise the handler
rewrites `vessel_state.json` atomically (`writeOk` is the outcome of that
write; a failure returns 500) and answers success.  The requester is only
logged, never checked, and no gate or tracking requirement exists. -/
def set_trade_manager (tokenOk : Bool) (_requester : Option String)
    (agent_name : String) (writeOk : Bool) : EndpointResp :=
  if !tokenOk then .httpError 401
  else if !(AGENT_WHITELIST.contains agent_name) then .httpError 403
  else if !writeOk then .httpError 500
  else .reply true

/-- `POST /agents/sessions/{sid}/kill` = `kill_agent_session`
(app.py lines 2679-2756).  A non-running session is a no-op answered with
`success: False`; a running one is marked killed and its worker released. -/
def kill_agent_session (tokenOk : Bool) (requester : Option String)
    (sid : Nat) (now : ℚ) (st : RelayState) : EndpointResp × RelayState :=
  if !tokenOk then (.httpError 401, st)
  else
    match lookupSession st.sessions sid with
    | none => (.httpError 404, st)
    | some s =>
      if requester.isSome && requester ≠ some "MsWednesday" &&
         (s.agent_name == requester.getD "") = false then
        (.httpError 403, st)
      else if s.status ≠ "running" then (.reply false, st)
      else
        (.reply true,
         { st with
             sessions :=
               (updSession st.sessions sid
                 (fun q => { q with status := "killed", completed_at := some now })),
             agents := auto_release st.agents s.agent_name })

/-- The spawn request body (app.py lines 2125-2133). -/
structure SpawnReq where
  agent_name : String
  job_type : String
  token_mint : Option String
  mode : String
  vessel_id : String
  deriving DecidableEq, Repr

/-- Outcome of `POST /agents/spawn`. -/
inductive SpawnOutcome where
  | ok (session_id : Nat)
  | err (code : Nat)
  deriving DecidableEq, Repr

/-- `POST /agents/spawn` = `spawn_agent` (app.py lines 2136-2283) together
with `_spawn_local` (lines 2320-2419).  `session_id`/`task_id` stand for the
freshly drawn UUIDs, `vesselConnected` for `req.vessel_id in vessels`,
`claudeCliExists` for `CLAUDE_CLI_PATH.exists()`.  All checks precede every
mutation; on the vessel branch the task is created in the dict, persisted and
queued, and the session record is registered running. -/
def spawn_agent (env : GateEnv) (tokenOk : Bool) (requester : Option String)
    (req : SpawnReq) (vesselConnected claudeCliExists : Bool)
    (session_id task_id : Nat) (now : ℚ) (st : RelayState) :
    SpawnOutcome × RelayState :=
  if !tokenOk then (.err 401, st)
  else if requester ≠ some "MsWednesday" then (.err 403, st)
  else if !(AGENT_WHITELIST.contains req.agent_name) || req.agent_name = "MsWednesday" then
    (.err 400, st)
  else if !(env.verify req.agent_name) then (.err 403, st)
  else if agentBusy st req.agent_name then (.err 409, st)
  else if req.mode = "local" then
    if !claudeCliExists then (.err 503, st)
    else
      (.ok session_id,
       { st with
           agents :=
             (markAgentBusy st.agents req.agent_name req.token_mint
               (agent_type_of req.job_type) now),
           sessions :=
             (st.sessions ++
               [{ sid := session_id, agent_name := req.agent_name,
                  job_type := req.job_type, task_id := none, vessel_id := "local",
                  mode := "local", started_at := now, status := "running",
                  completed_at := none, result := none }]) })
  else if !vesselConnected then (.err 503, st)
  else
    let trec : TaskRec :=
      { vessel_id := req.vessel_id, task_type := "agent", payload := "agent_payload",
        priority := 1, timeout := 0, status := "queued", submitted_at := now,
        completed_at := none, result := none }
    (.ok session_id,
     { st with
         agents :=
           (markAgentBusy st.agents req.agent_name req.token_mint
             (agent_type_of req.job_type) now),
         tasksMem := upsertTask st.tasksMem task_id trec,
         tasksDb := upsertTask st.tasksDb task_id trec,
         queue := st.queue ++ [task_id],
         sessions :=
           (st.sessions ++
             [{ sid := session_id, agent_name := req.agent_name,
                job_type := req.job_type, task_id := some task_id,
                vessel_id := req.vessel_id, mode := req.mode, started_at := now,
                status := "running", completed_at := none, result := none }]) })

/-- `POST /task` = `submit_task` (app.py lines 914-943): create the queued
record, cache it, persist it (`save_task`), enqueue it. -/
def submit_task (tokenOk : Bool) (task_id : Nat) (vessel_id task_type payload : String)
    (priority : Int) (timeout now : ℚ) (st : RelayState) : RelayState :=
  if !tokenOk then st
  else
    let trec : TaskRec :=
      { vessel_id := vessel_id, task_type := task_type, payload := payload,
        priority := priority, timeout := timeout, status := "queued",
        submitted_at := now, completed_at := none, result := none }
    { st with
        tasksMem := upsertTask st.tasksMem task_id trec,
        tasksDb := upsertTask st.tasksDb task_id trec,
        queue := st.queue ++ [task_id] }

/-- One iteration of `_send_tasks` (app.py lines 2969-2977): dequeue a task
and flip its in-memory status to `"sent"`.  `save_task` is NOT called here,
so `tasksDb` is untouched. -/
def send_tasks_step (st : RelayState) : RelayState :=
  match st.queue with
  | [] => st
  | tid :: rest =>
    { st with
        queue := rest,
        tasksMem := mapTask st.tasksMem tid (fun t => { t with status := "sent" }) }

/-- Handling of one `result` message in `_receive_results` (app.py lines
2982-3010): update and persist the task, then, when the payload names a known
session, update the session record and release its worker. -/
def receive_result_step (task_id : Nat) (status : String) (res : Option String)
    (session_id : Option Nat) (now : ℚ) (st : RelayState) : RelayState :=
  if st.tasksMem.any (fun p => p.1 == task_id) then
    let mem2 := mapTask st.tasksMem task_id
      (fun t => { t with status := status, result := res, completed_at := some now })
    let db2 := match lookupTask mem2 task_id with
      | some t => upsertTask st.tasksDb task_id t
      | none => st.tasksDb
    let st2 := { st with tasksMem := mem2, tasksDb := db2 }
    match session_id with
    | none => st2
    | some sid =>
      match lookupSession st2.sessions sid with
      | none => st2
      | some s =>
        { st2 with
            sessions :=
              (updSession st2.sessions sid
                (fun q => { q with status := status, completed_at := some now, result := res })),
            agents := auto_release st2.agents s.agent_name }
  else st

/-- Selection predicate of the session-timeout phase of
`_session_watchdog_loop` (app.py lines 620-627). -/
def timedOutSel (sessionTimeout now : ℚ) (s : Session) : Bool :=
  s.status == "running" && decide (sessionTimeout < now - s.started_at)

/-- Session-timeout phase of `_session_watchdog_loop` (app.py lines 615-669):
every running session past the horizon is marked `timed_out` and its worker
released. -/
def timeout_sweep (sessionTimeout now : ℚ) (st : RelayState) : RelayState :=
  { st with
      sessions :=
        (st.sessions.map (fun s =>
          if timedOutSel sessionTimeout now s then
            { s with status := "timed_out", completed_at := some now } else s)),
      agents :=
        (releaseNames st.agents
          ((st.sessions.filter (timedOutSel sessionTimeout now)).map (·.agent_name))) }

/-- Selection predicate of the orphan phase (app.py lines 673-679): running,
not local, vessel no longer connected. -/
def orphanSel (connected : List String) (s : Session) : Bool :=
  s.status == "running" && !(s.mode == "local") && !(connected.contains s.vessel_id)

/-- Orphan phase of `_session_watchdog_loop` (app.py lines 671-695). -/
def orphan_sweep (connected : List String) (now : ℚ) (st : RelayState) : RelayState :=
  { st with
      sessions :=
        (st.sessions.map (fun s =>
          if orphanSel connected s then
            { s with status := "orphaned", completed_at := some now } else s)),
      agents :=
        (releaseNames st.agents
          ((st.sessions.filter (orphanSel connected)).map (·.agent_name))) }

/-- MANAGER_TIMEOUT_HOURS (app.py line 255), in seconds. -/
def MANAGER_TIMEOUT_SECONDS : ℚ := 5 * 3600

/-- Selection predicate of `_check_manager_timeouts` (app.py lines 539-562):
a busy manager-typed entry whose last check-in is over the horizon
(`elapsed_hours > MANAGER_TIMEOUT_HOURS`); entries without a check-in are
skipped. -/
def managerExpired (now : ℚ) (p : String × AgentEntry) : Bool :=
  p.2.atype == some "manager" && p.2.busy &&
    (match p.2.last_checkin with
     | some t => decide (MANAGER_TIMEOUT_SECONDS < now - t)
     | none => false)

/-- `_manager_timeout_loop` body (app.py lines 601-612 with 539-562):
release every expired manager.  Sessions are not consulted. -/
def manager_timeout_sweep (now : ℚ) (st : RelayState) : RelayState :=
  { st with
      agents :=
        (st.agents.map (fun p =>
          if managerExpired now p then (p.1, idleEntry) else p)) }

/-! ## Operations, reachability and the session/busy invariant -/

/-- One state-mutating operation of the relay, bundling the request data and
the environment (gate files, clock, connectivity) it executes in. -/
inductive Op where
  | spawn (env : GateEnv) (tokenOk : Bool) (requester : Option String)
      (req : SpawnReq) (vesselConnected claudeCliExists : Bool)
      (session_id task_id : Nat) (now : ℚ)
  | releaseOp (tokenOk : Bool) (requester : Option String) (agent_name : String)
  | checkinOp (tokenOk : Bool) (agent_name : String) (now : ℚ)
  | killOp (tokenOk : Bool) (requester : Option String) (sid : Nat) (now : ℚ)
  | submitOp (tokenOk : Bool) (task_id : Nat) (vessel_id task_type payload : String)
      (priority : Int) (timeout now : ℚ)
  | sendOp
  | resultOp (task_id : Nat) (status : String) (res : Option String)
      (session_id : Option Nat) (now : ℚ)
  | timeoutSweepOp (sessionTimeout now : ℚ)
  | orphanSweepOp (connected : List String) (now : ℚ)
  | managerSweepOp (now : ℚ)

/-- Effect of an operation on the relay state. -/
def step : Op → RelayState → RelayState
  | .spawn env tokenOk requester req conn cli sid tid now, st =>
    (spawn_agent env tokenOk requester req conn cli sid tid now st).2
  | .releaseOp tokenOk requester name, st => (release_agent tokenOk requester name st).2
  | .checkinOp tokenOk name now, st => (agent_checkin tokenOk name now st).2
  | .killOp tokenOk requester sid now, st => (kill_agent_session tokenOk requester sid now st).2
  | .submitOp tokenOk tid vid tty payload prio tmo now, st =>
    submit_task tokenOk tid vid tty payload prio tmo now st
  | .sendOp, st => send_tasks_step st
  | .resultOp tid status res osid now, st => receive_result_step tid status res osid now st
  | .timeoutSweepOp sto now, st => timeout_sweep sto now st
  | .orphanSweepOp conn now, st => orphan_sweep conn now st
  | .managerSweepOp now, st => manager_timeout_sweep now st

/-- Startup state: the default availability map of `_read_availability`
(app.py lines 495-506), no sessions, no tasks, empty queue. -/
def initState : RelayState :=
  { agents :=
      [("CP0", idleEntry), ("CP1", idleEntry), ("CP9", idleEntry),
       ("msSunday", idleEntry), ("msCounsel", idleEntry), ("Chopper", idleEntry)],
    sessions := [], tasksMem := [], tasksDb := [], queue := [] }

/-- States reachable from startup by relay operations. -/
inductive Reachable : RelayState → Prop where
  | init : Reachable initState
  | step (o : Op) {s : RelayState} : Reachable s → Reachable (step o s)

/-- The worker single-activity invariant claimed by the specification: at
most one running session per worker, and a worker is busy iff it has a
running session. -/
def SessionBusyInv (st : RelayState) : Prop :=
  ∀ w, runningCount st w ≤ 1 ∧ (agentBusy st w = true ↔ 0 < runningCount st w)

/-- Session ids are pairwise distinct (guaranteed by UUID drawing). -/
def SidsNodup (st : RelayState) : Prop :=
  (st.sessions.map (·.sid)).Nodup

/-- `s.agent_name == w && s.status == "running"`: the session counts towards
worker `w`'s running total. -/
def pRun (w : String) (s : Session) : Bool :=
  s.agent_name == w && s.status == "running"

/-- Busy flag read off an availability map. -/
def busyOf (A : List (String × AgentEntry)) (w : String) : Bool :=
  ((lookupAgent A w).map (·.busy)).getD false

/-- Environment side conditions under which an operation is considered:
fresh UUIDs for spawn, releases only of workers without a running session,
and result messages that carry one of the vessel's terminal statuses
(src/vessel/executor.py emits completed/error/timeout/cancelled) for a
session that is still running. -/
def OpOK : Op → RelayState → Prop
  | .spawn _ _ _ _ _ _ sid _ _, st => sid ∉ st.sessions.map (·.sid)
  | .releaseOp _ _ name, st => runningCount st name = 0
  | .resultOp _ status _ osid _, st =>
      status ≠ "running" ∧
        ∀ s ∈ st.sessions, osid = some s.sid → s.status = "running"
  | .managerSweepOp now, st =>
      ∀ p ∈ st.agents, managerExpired now p = true → runningCount st p.1 = 0
  | _, _ => True

/-! ## Concrete instantiations used in counterexamples and witnesses -/

/-- Concrete stand-in for the keyed HMAC when evaluating on closed inputs. -/
def toyMac (m : String) : String := "mac:" ++ m

/-- A gate artifact whose `agent` (subject) field names msSunday, signed
consistently over its own fields. -/
def gateWrongSubject : GateFile :=
  { authorized_by := "MsWednesday", agent := "msSunday", tsRepr := "100",
    expRepr := "200", expires_at := 200, signature := toyMac "msSunday|100|200" }

/-- A well-formed gate for CP1. -/
def gateCP1 : GateFile :=
  { authorized_by := "MsWednesday", agent := "CP1", tsRepr := "0",
    expRepr := "100", expires_at := 100, signature := toyMac "CP1|0|100" }

/-- Environment with a valid gate on disk for CP1 only. -/
def envCP1 : GateEnv :=
  { secretLoaded := true, hmac := toyMac,
    gates := fun n => if n = "CP1" then some gateCP1 else none, now := 0 }

/-- Environment with no gate artifact on disk for anyone. -/
def envNoGates : GateEnv :=
  { secretLoaded := true, hmac := toyMac, gates := fun _ => none, now := 0 }

/-- A vessel-mode spawn request for CP1. -/
def spawnReqCP1 : SpawnReq :=
  { agent_name := "CP1", job_type := "trader", token_mint := none,
    mode := "oneshot", vessel_id := "phone-01" }

/-- spawn(CP1); manual release(CP1); spawn(CP1) again — all three calls
succeed against the code. -/
def opSpawn1 : Op := .spawn envCP1 true (some "MsWednesday") spawnReqCP1 true true 1 101 0
def opRelease : Op := .releaseOp true (some "MsWednesday") "CP1"
def opSpawn2 : Op := .spawn envCP1 true (some "MsWednesday") spawnReqCP1 true true 2 102 10

/-- The state after spawn; release; spawn. -/
def doubleSpawnState : RelayState :=
  step opSpawn2 (step opRelease (step opSpawn1 initState))

/-- The state after submitting task 7 and handing it to the vessel channel. -/
def sentTaskState : RelayState :=
  step .sendOp (step (.submitOp true 7 "phone-01" "shell" "pl" 0 300 0) initState)

/-- The state after spawning CP1 (session 1) and killing that session. -/
def killedSessionState : RelayState :=
  step (.killOp true (some "MsWednesday") 1 5) (step opSpawn1 initState)

/-- A 32-character base58-shaped token mint accepted by SOLANA_ADDR_RE. -/
def validMint : String := "A1111111111111111111111111111111"

/-- The record stored for session 1 inside `killedSessionState`. -/
def killedSession1 : Session :=
  { sid := 1, agent_name := "CP1", job_type := "trader", task_id := some 101,
    vessel_id := "phone-01", mode := "oneshot", started_at := 0,
    status := "killed", completed_at := some 5, result := none }

/-- Holdings after a 50% sell: one token worth $100 left, 0.016 SOL. -/
def holdingsAfterHalfSell : Holdings :=
  { success := true, sol_balance := 2/125,
    tokens := [{ mint := "TOKENMINT", ui_amount := 5, usd_value := some 100 }] }

/-- Holdings after a final sell: no tokens, 0.05 SOL left. -/
def holdingsFinalSell : Holdings :=
  { success := true, sol_balance := 1/20, tokens := [] }

/-! # Theorems -/

theorem runningCount_eq (st : RelayState) (w : String) :
    runningCount st w = st.sessions.countP (pRun w) := rfl

theorem agentBusy_eq (st : RelayState) (w : String) :
    agentBusy st w = busyOf st.agents w := rfl

/-- Dropping a member that fails the predicate makes the filter strictly
shorter. -/
theorem length_filter_lt_of_mem {α : Type} {l : List α} {p : α → Bool} {a : α}
    (ha : a ∈ l) (hpa : p a = false) :
    (l.filter p).length < l.length := by
  induction l with
  | nil => cases ha
  | cons x t ih =>
    rcases List.mem_cons.mp ha with rfl | hat
    · have := List.length_filter_le p t
      simp [List.filter_cons, hpa]
      omega
    · by_cases hx : p x = true
      · simpa [List.filter_cons, hx] using Nat.succ_lt_succ (ih hat)
      · have hx' : p x = false := by simpa using hx
        have := ih hat
        simp [List.filter_cons, hx']
        omega

/-- C1 (counterexample): the gate verifier accepts a gate whose subject
(`agent` field) names a different worker than the one being verified —
`_verify_agent_gate` never compares `data["agent"]` to `agent_name` — and it
also accepts at `now = expires_at` (the code rejects only `now > expires`).
This refutes the claim that acceptance requires subject = worker and
now strictly before expiry. -/
theorem C1_counterexample :
    verify_agent_gate true toyMac "CP1" (some gateWrongSubject) 200 = true
    ∧ gateWrongSubject.agent ≠ "CP1"
    ∧ ¬((200 : Int) < gateWrongSubject.expires_at) := by
  refine ⟨by decide, by decide, by decide⟩

/-- C1 (amended): for a non-apex worker with a gate-workspace entry, with the
spawn secret loaded and a parseable gate with all fields present, the
verifier returns true iff the issuer is MsWednesday, `now ≤ expires_at`
(equality included), and the HMAC over `agent|timestamp|expires_at` matches
the signature; the subject field is signed but never compared to the worker
being verified. -/
theorem C1_gate_characterization (hmac : String → String) (agent_name : String)
    (d : GateFile) (now : Int)
    (h1 : agent_name ≠ "MsWednesday")
    (h2 : AGENT_GATE_WORKSPACES.contains agent_name = true) :
    verify_agent_gate true hmac agent_name (some d) now = true ↔
      (d.authorized_by = "MsWednesday" ∧ now ≤ d.expires_at ∧
        hmac (gateMessage d) = d.signature) := by
  unfold verify_agent_gate
  rw [if_neg h1]
  simp only [h2, Bool.not_true, Bool.not_false]
  rw [if_neg (by simp), if_neg (by simp)]
  split_ifs with hA hE
  · simp only [false_iff]
    rintro ⟨hA2, -, -⟩
    exact hA hA2
  · simp only [false_iff]
    rintro ⟨-, hE2, -⟩
    omega
  · push_neg at hA
    constructor
    · intro h
      exact ⟨hA, by omega, by simpa using h⟩
    · rintro ⟨-, -, hs⟩
      simpa using hs

/-- C1 witness: the characterization applied to the CP1 gate at time 0. -/
theorem C1_gate_characterization_witness :
    ("CP1" ≠ "MsWednesday") ∧ AGENT_GATE_WORKSPACES.contains "CP1" = true
    ∧ (verify_agent_gate true toyMac "CP1" (some gateCP1) 0 = true ↔
        (gateCP1.authorized_by = "MsWednesday" ∧ (0 : Int) ≤ gateCP1.expires_at ∧
          toyMac (gateMessage gateCP1) = gateCP1.signature)) :=
  ⟨by decide, by decide, C1_gate_characterization toyMac "CP1" gateCP1 0 (by decide) (by decide)⟩

/-- C5 (counterexample): with 0.016 SOL and a real token position left after a
50% sell, the engine initiates a transfer of 0.016 − 0.01 − 0.002 = 0.004 SOL
(tx-fee buffer 0.002, app.py line 884), whereas the claimed formula
0.016 − 0.01 − 0.005 = 0.001 differs and does not exceed the 0.002 threshold,
so the claim predicts no transfer at all. -/
theorem C5_counterexample :
    handle_post_sell_capital_flow "CP1" 50 true holdingsAfterHalfSell true true
      = [CFAction.transferSol "CP1" "MsWednesday" (some (1/250)),
         CFAction.notify "auto_return_keep_gas"]
    ∧ (1/250 : ℚ) ≠ 2/125 - 1/100 - 1/200
    ∧ ¬(MIN_RETURNABLE < 2/125 - 1/100 - 1/200) := by
  refine ⟨?_, by norm_num, by norm_num [MIN_RETURNABLE]⟩
  unfold handle_post_sell_capital_flow
  rw [if_neg (by decide : ¬("CP1" = "MsWednesday"))]
  norm_num [holdingsAfterHalfSell, dust_classify, total_usd_of, round9,
    AGENT_GAS_SOL, MIN_RETURNABLE, DUST_GAS_THRESHOLD]

/-- Dust-classification notifications are operator notifications only. -/
theorem dust_classify_only_notifies (sell_percent sol_balance : ℚ)
    (tokens : List TokenHolding) :
    ∀ x ∈ (dust_classify sell_percent sol_balance tokens).2, ∃ tag, x = CFAction.notify tag := by
  unfold dust_classify
  by_cases h1 : (tokens.any fun t => decide (0 < t.ui_amount)) = true
  · simp only [h1, if_true]
    split_ifs with h2 h3
    · simp
    · rcases h : total_usd_of tokens with - | total
      · simp [h]
      · simp only [h]
        split_ifs <;> simp
    · simp
  · simp only [Bool.not_eq_true] at h1
    simp [h1]

/-- C5 (amended): in the keep-position branch (worker still classified as
holding tokens), the engine computes returnable = sol_balance − 0.01 − 0.002
(gas reserve 0.01 plus a 0.002 tx-fee buffer, not the 0.005 buffer the
specification names), and a SOL transfer back to MsWednesday is initiated iff
that amount exceeds MIN_RETURNABLE = 0.002. -/
theorem C5_returnable_amount (agent_name : String) (sell_percent : ℚ)
    (holdings : Holdings) (transferOk releaseOk : Bool)
    (h1 : agent_name ≠ "MsWednesday") (h2 : holdings.success = true)
    (h3 : (dust_classify sell_percent holdings.sol_balance holdings.tokens).1 = true) :
    ((∃ a, CFAction.transferSol agent_name "MsWednesday" a ∈
        handle_post_sell_capital_flow agent_name sell_percent true holdings transferOk releaseOk)
      ↔ MIN_RETURNABLE < holdings.sol_balance - AGENT_GAS_SOL - 1/500)
    ∧ (∀ a, CFAction.transferSol agent_name "MsWednesday" a ∈
        handle_post_sell_capital_flow agent_name sell_percent true holdings transferOk releaseOk →
          a = some (round9 (holdings.sol_balance - AGENT_GAS_SOL - 1/500))) := by
  have hout : handle_post_sell_capital_flow agent_name sell_percent true holdings transferOk releaseOk
      = (dust_classify sell_percent holdings.sol_balance holdings.tokens).2 ++
        (if MIN_RETURNABLE < holdings.sol_balance - AGENT_GAS_SOL - 1/500 then
          CFAction.transferSol agent_name "MsWednesday"
              (some (round9 (holdings.sol_balance - AGENT_GAS_SOL - 1/500))) ::
            (if transferOk then [CFAction.notify "auto_return_keep_gas"] else [])
        else []) := by
    unfold handle_post_sell_capital_flow
    rw [if_neg h1]
    simp [h2, h3]
  rw [hout]
  constructor
  · constructor
    · rintro ⟨a, ha⟩
      rcases List.mem_append.mp ha with hd | hr
      · obtain ⟨tag, htag⟩ := dust_classify_only_notifies sell_percent holdings.sol_balance
          holdings.tokens _ hd
        cases htag
      · by_contra hnot
        rw [if_neg hnot] at hr
        cases hr
    · intro hlt
      refine ⟨some (round9 (holdings.sol_balance - AGENT_GAS_SOL - 1/500)), ?_⟩
      rw [if_pos hlt]
      exact List.mem_append_right _ (List.mem_cons_self _ _)
  · intro a ha
    rcases List.mem_append.mp ha with hd | hr
    · obtain ⟨tag, htag⟩ := dust_classify_only_notifies sell_percent holdings.sol_balance
        holdings.tokens _ hd
      cases htag
    · by_cases hlt : MIN_RETURNABLE < holdings.sol_balance - AGENT_GAS_SOL - 1/500
      · rw [if_pos hlt] at hr
        rcases List.mem_cons.mp hr with heq | hnote
        · simpa using heq
        · split_ifs at hnote <;> simp at hnote
      · rw [if_neg hlt] at hr
        cases hr

/-- C5 witness: the amended statement at the concrete post-50%-sell holdings. -/
theorem C5_returnable_amount_witness :
    ("CP1" ≠ "MsWednesday") ∧ holdingsAfterHalfSell.success = true
    ∧ (dust_classify 50 holdingsAfterHalfSell.sol_balance holdingsAfterHalfSell.tokens).1 = true
    ∧ (((∃ a, CFAction.transferSol "CP1" "MsWednesday" a ∈
          handle_post_sell_capital_flow "CP1" 50 true holdingsAfterHalfSell true true)
        ↔ MIN_RETURNABLE < holdingsAfterHalfSell.sol_balance - AGENT_GAS_SOL - 1/500)
      ∧ (∀ a, CFAction.transferSol "CP1" "MsWednesday" a ∈
          handle_post_sell_capital_flow "CP1" 50 true holdingsAfterHalfSell true true →
            a = some (round9 (holdingsAfterHalfSell.sol_balance - AGENT_GAS_SOL - 1/500)))) := by
  have h3 : (dust_classify 50 holdingsAfterHalfSell.sol_balance holdingsAfterHalfSell.tokens).1 = true := by
    norm_num [dust_classify, holdingsAfterHalfSell, DUST_GAS_THRESHOLD]
  exact ⟨by decide, by decide, h3,
    C5_returnable_amount "CP1" 50 holdingsAfterHalfSell true true (by decide) (by decide) h3⟩

/-- C6: in the final branch (no tokens or only dust remaining), the worker
release is invoked unconditionally — for every transfer outcome, including a
failed transfer (`transferOk = false`) and a skipped one (balance at or below
MIN_RETURNABLE). -/
theorem C6_release_always_attempted (agent_name : String) (sell_percent : ℚ)
    (holdings : Holdings) (transferOk releaseOk : Bool)
    (h1 : agent_name ≠ "MsWednesday") (h2 : holdings.success = true)
    (h3 : (dust_classify sell_percent holdings.sol_balance holdings.tokens).1 = false) :
    CFAction.release agent_name ∈
      handle_post_sell_capital_flow agent_name sell_percent true holdings transferOk releaseOk := by
  unfold handle_post_sell_capital_flow
  rw [if_neg h1]
  simp only [h2, Bool.not_true, if_false, h3]
  refine List.mem_append_right _ (List.mem_append_right _ (List.mem_cons_self _ _))

/-- C6 witness: release still happens when the final SOL return fails. -/
theorem C6_release_always_attempted_witness :
    ("CP1" ≠ "MsWednesday") ∧ holdingsFinalSell.success = true
    ∧ (dust_classify 100 holdingsFinalSell.sol_balance holdingsFinalSell.tokens).1 = false
    ∧ CFAction.release "CP1" ∈
        handle_post_sell_capital_flow "CP1" 100 true holdingsFinalSell false false := by
  have h3 : (dust_classify 100 holdingsFinalSell.sol_balance holdingsFinalSell.tokens).1 = false := by
    norm_num [dust_classify, holdingsFinalSell]
  exact ⟨by decide, by decide, h3,
    C6_release_always_attempted "CP1" 100 holdingsFinalSell false false (by decide) (by decide) h3⟩

/-- Only elements already satisfying `p` can satisfy it after mapping `u`,
so the count cannot grow. -/
theorem countP_map_le {α : Type} (l : List α) (u : α → α) (p : α → Bool)
    (h : ∀ s ∈ l, p (u s) = true → p s = true) :
    (l.map u).countP p ≤ l.countP p := by
  induction l with
  | nil => simp
  | cons a t ih =>
    simp only [List.map_cons, List.countP_cons]
    have ht := ih (fun s hs => h s (List.mem_cons_of_mem a hs))
    by_cases hu : p (u a) = true
    · have ha : p a = true := h a (List.mem_cons_self a t) hu
      simp only [hu, ha, if_true]
      omega
    · simp only [Bool.not_eq_true] at hu
      simp only [hu, Bool.false_eq_true, if_false]
      split <;> omega

/-- A pointwise `p`-preserving map preserves the count. -/
theorem countP_map_congr {α : Type} (l : List α) (u : α → α) (p : α → Bool)
    (h : ∀ s ∈ l, p (u s) = p s) :
    (l.map u).countP p = l.countP p := by
  induction l with
  | nil => rfl
  | cons a t ih =>
    simp only [List.map_cons, List.countP_cons, h a (List.mem_cons_self a t),
      ih (fun s hs => h s (List.mem_cons_of_mem a hs))]

/-- Two distinct members satisfying `p` push the count to at least two. -/
theorem two_le_countP {α : Type} {l : List α} {p : α → Bool} {s t : α}
    (hs : s ∈ l) (ht : t ∈ l) (hne : s ≠ t) (hps : p s = true) (hpt : p t = true) :
    2 ≤ l.countP p := by
  induction l with
  | nil => cases hs
  | cons a r ih =>
    rw [List.countP_cons]
    rcases List.mem_cons.mp hs with rfl | hs2
    · rcases List.mem_cons.mp ht with rfl | ht2
      · exact absurd rfl hne
      · have h1 : 0 < r.countP p := List.countP_pos.mpr ⟨t, ht2, hpt⟩
        simp only [hps, if_true]
        omega
    · rcases List.mem_cons.mp ht with rfl | ht2
      · have h1 : 0 < r.countP p := List.countP_pos.mpr ⟨s, hs2, hps⟩
        simp only [hpt, if_true]
        omega
      · have := ih hs2 ht2
        split <;> omega

/-- A sid-preserving session map preserves the sid list. -/
theorem sids_map_eq {l : List Session} {u : Session → Session}
    (h : ∀ s ∈ l, (u s).sid = s.sid) :
    (l.map u).map (fun s => s.sid) = l.map (fun s => s.sid) := by
  induction l with
  | nil => rfl
  | cons a t ih =>
    simp only [List.map_cons, h a (List.mem_cons_self a t),
      ih (fun s hs => h s (List.mem_cons_of_mem a hs))]

/-- Members with equal sids coincide when the sid list has no duplicates. -/
theorem eq_of_sid_eq {l : List Session} (hnd : (l.map (fun s => s.sid)).Nodup)
    {x y : Session} (hx : x ∈ l) (hy : y ∈ l) (h : x.sid = y.sid) : x = y :=
  List.inj_on_of_nodup_map hnd hx hy h

/-- `setAgent` through the lookup. -/
theorem lookupAgent_setAgent (A : List (String × AgentEntry)) (n : String)
    (f : AgentEntry → AgentEntry) (w : String) :
    lookupAgent (setAgent A n f) w
      = (lookupAgent A w).map (fun e => if w = n then f e else e) := by
  induction A with
  | nil => rfl
  | cons a t ih =>
    by_cases han : a.1 = n <;> by_cases haw : a.1 = w <;>
      simp_all [lookupAgent, setAgent, List.find?_cons]

/-- `releaseNames` through the lookup. -/
theorem lookupAgent_releaseNames (A : List (String × AgentEntry)) (ns : List String)
    (w : String) :
    lookupAgent (releaseNames A ns) w
      = (lookupAgent A w).map (fun e => if ns.contains w then idleEntry else e) := by
  induction A with
  | nil => rfl
  | cons a t ih =>
    by_cases hc : ns.contains a.1 = true <;> by_cases haw : a.1 = w <;>
      simp_all [lookupAgent, releaseNames, List.find?_cons]

/-- Conditionally idling entries, through the lookup (manager sweep shape). -/
theorem lookupAgent_mapIf (A : List (String × AgentEntry))
    (c : String × AgentEntry → Bool) (w : String) :
    lookupAgent (A.map (fun p => if c p then (p.1, idleEntry) else p)) w
      = (A.find? (fun p => p.1 == w)).map (fun p => if c p then idleEntry else p.2) := by
  induction A with
  | nil => rfl
  | cons a t ih =>
    by_cases hc : c a = true <;> by_cases haw : a.1 = w <;>
      simp_all [lookupAgent, List.find?_cons]

/-- Keyed find? over an append. -/
theorem find?_append_or {α : Type} (l1 l2 : List α) (p : α → Bool) :
    List.find? p (l1 ++ l2) = (List.find? p l1).or (List.find? p l2) := by
  induction l1 with
  | nil => simp
  | cons a t ih =>
    by_cases h : p a = true <;> simp [List.find?_cons, h, ih]

/-- find? misses when no element matches. -/
theorem find?_eq_none_of_any_false {α : Type} (l : List α) (p : α → Bool)
    (h : l.any p = false) :
    List.find? p l = none := by
  rw [List.find?_eq_none]
  intro x hx hpx
  have hT : l.any p = true := by
    simp only [List.any_eq_true]
    exact ⟨x, hx, hpx⟩
  rw [h] at hT
  cases hT

/-- `_mark_agent_busy` through the lookup: the target gets the busy update
applied to its previous entry (a fresh default when untracked); other
workers are untouched. -/
theorem lookupAgent_markBusy (A : List (String × AgentEntry)) (n : String)
    (tm : Option String) (ty : String) (now : ℚ) (w : String) :
    lookupAgent (markAgentBusy A n tm ty now) w
      = if w = n then some (busyUpdate tm ty now ((lookupAgent A n).getD idleEntry))
        else lookupAgent A w := by
  unfold markAgentBusy
  by_cases hany : A.any (fun p => p.1 == n) = true
  · rw [if_pos hany, lookupAgent_setAgent]
    by_cases hwn : w = n
    · subst hwn
      rcases hf : lookupAgent A w with - | e
      · exfalso
        rcases List.any_eq_true.mp hany with ⟨x, hx, hpx⟩
        have : List.find? (fun p => p.1 == w) A = none := by
          unfold lookupAgent at hf
          cases hg : List.find? (fun p => p.1 == w) A
          · rfl
          · rw [hg] at hf
            cases hf
        rw [List.find?_eq_none] at this
        exact this x hx hpx
      · simp [hf]
    · simp [hwn]
  · rw [if_neg hany]
    have hnone : List.find? (fun p => p.1 == n) A = none :=
      find?_eq_none_of_any_false A _ (by simp only [Bool.not_eq_true] at hany; exact hany)
    unfold lookupAgent
    rw [find?_append_or]
    by_cases hwn : w = n
    · subst hwn
      rw [hnone]
      simp [List.find?, Option.or, hnone]
    · have hsing : List.find? (fun p => p.1 == w) [(n, busyUpdate tm ty now idleEntry)] = none := by
        rw [List.find?_eq_none]
        intro x hx
        simp only [List.mem_singleton] at hx
        subst hx
        simp only [beq_iff_eq]
        exact fun h => hwn h.symm
      rw [hsing]
      cases hg : List.find? (fun p => p.1 == w) A <;> simp [Option.or, hwn]

/-- Terminalizing a selected set of running sessions while releasing exactly
their owners preserves the per-worker single-activity property. -/
theorem inv_terminalize_release
    (agents agents2 : List (String × AgentEntry)) (l : List Session)
    (q : Session → Bool) (u : Session → Session) (owners : List String)
    (hInv : ∀ w, l.countP (pRun w) ≤ 1 ∧ (busyOf agents w = true ↔ 0 < l.countP (pRun w)))
    (hq : ∀ s ∈ l, q s = true → s.status = "running")
    (hu_sel : ∀ s ∈ l, q s = true → (u s).status ≠ "running" ∧ (u s).agent_name = s.agent_name)
    (hu_id : ∀ s ∈ l, q s = false → u s = s)
    (howners : ∀ s ∈ l, q s = true → s.agent_name ∈ owners)
    (howners2 : ∀ w ∈ owners, ∃ s ∈ l, q s = true ∧ s.agent_name = w)
    (hA : ∀ w, busyOf agents2 w = if w ∈ owners then false else busyOf agents w) :
    ∀ w, (l.map u).countP (pRun w) ≤ 1 ∧
      (busyOf agents2 w = true ↔ 0 < (l.map u).countP (pRun w)) := by
  intro w
  have hle : (l.map u).countP (pRun w) ≤ l.countP (pRun w) := by
    apply countP_map_le
    intro s hs hp
    by_cases hqs : q s = true
    · exfalso
      have hterm := (hu_sel s hs hqs).1
      unfold pRun at hp
      simp only [Bool.and_eq_true, beq_iff_eq] at hp
      exact hterm hp.2
    · rw [hu_id s hs (by simpa using hqs)] at hp
      exact hp
  refine ⟨le_trans hle (hInv w).1, ?_⟩
  by_cases hw : w ∈ owners
  · rw [hA w, if_pos hw]
    constructor
    · intro hfalse
      cases hfalse
    · intro hpos
      exfalso
      obtain ⟨x, hx, hpx⟩ := List.countP_pos.mp hpos
      obtain ⟨s, hs, rfl⟩ := List.mem_map.mp hx
      by_cases hqs : q s = true
      · have hterm := (hu_sel s hs hqs).1
        unfold pRun at hpx
        simp only [Bool.and_eq_true, beq_iff_eq] at hpx
        exact hterm hpx.2
      · rw [hu_id s hs (by simpa using hqs)] at hpx
        obtain ⟨t, ht, hqt, hta⟩ := howners2 w hw
        have hpt : pRun w t = true := by
          unfold pRun
          simp only [Bool.and_eq_true, beq_iff_eq]
          exact ⟨hta, hq t ht hqt⟩
        have hst : s ≠ t := by
          intro he
          rw [he] at hqs
          exact hqs hqt
        have h2 := two_le_countP hs ht hst hpx hpt
        have h1 := (hInv w).1
        omega
  · rw [hA w, if_neg hw]
    have hcong : (l.map u).countP (pRun w) = l.countP (pRun w) := by
      apply countP_map_congr
      intro s hs
      by_cases hqs : q s = true
      · have h1 := (hu_sel s hs hqs).2
        have h2 := howners s hs hqs
        have hne : ¬(s.agent_name = w) := fun he => hw (he ▸ h2)
        have hb : (s.agent_name == w) = false := by
          simp only [beq_eq_false_iff_ne, ne_eq]
          exact hne
        unfold pRun
        rw [h1, hb]
        simp
      · rw [hu_id s hs (by simpa using hqs)]
    rw [hcong]
    exact (hInv w).2

/-- State form of `inv_terminalize_release`, adding session-id preservation. -/
theorem inv_step_terminalize (st : RelayState) (agents2 : List (String × AgentEntry))
    (q : Session → Bool) (u : Session → Session) (owners : List String)
    (hInv : SessionBusyInv st) (hnd : SidsNodup st)
    (hq : ∀ s ∈ st.sessions, q s = true → s.status = "running")
    (hu_sel : ∀ s ∈ st.sessions, q s = true →
      (u s).status ≠ "running" ∧ (u s).agent_name = s.agent_name)
    (hu_id : ∀ s ∈ st.sessions, q s = false → u s = s)
    (hu_sid : ∀ s, (u s).sid = s.sid)
    (howners : ∀ s ∈ st.sessions, q s = true → s.agent_name ∈ owners)
    (howners2 : ∀ w ∈ owners, ∃ s ∈ st.sessions, q s = true ∧ s.agent_name = w)
    (hA : ∀ w, busyOf agents2 w = if w ∈ owners then false else busyOf st.agents w) :
    SessionBusyInv { st with agents := agents2, sessions := st.sessions.map u }
    ∧ SidsNodup { st with agents := agents2, sessions := st.sessions.map u } := by
  constructor
  · exact inv_terminalize_release st.agents agents2 st.sessions q u owners hInv hq
      hu_sel hu_id howners howners2 hA
  · have hsids := sids_map_eq (l := st.sessions) (u := u) (fun s _ => hu_sid s)
    show ((st.sessions.map u).map (fun s => s.sid)).Nodup
    rw [hsids]
    exact hnd

/-- Appending a fresh running session for a previously idle worker and
marking exactly that worker busy preserves the invariant. -/
theorem inv_add_session (st st2 : RelayState) (newS : Session)
    (hsess : st2.sessions = st.sessions ++ [newS])
    (hInv : SessionBusyInv st) (hnd : SidsNodup st)
    (hfresh : newS.sid ∉ st.sessions.map (fun s => s.sid))
    (hrun : newS.status = "running")
    (hbusy0 : agentBusy st newS.agent_name = false)
    (hA : ∀ w, agentBusy st2 w = if w = newS.agent_name then true else agentBusy st w) :
    SessionBusyInv st2 ∧ SidsNodup st2 := by
  have hc0 : st.sessions.countP (pRun newS.agent_name) = 0 := by
    by_contra hne
    have hpos : 0 < runningCount st newS.agent_name := Nat.pos_of_ne_zero hne
    have := (hInv newS.agent_name).2.mpr hpos
    rw [hbusy0] at this
    cases this
  constructor
  · intro w
    have happ : runningCount st2 w
        = st.sessions.countP (pRun w) + (if pRun w newS = true then 1 else 0) := by
      show st2.sessions.countP (pRun w) = _
      rw [hsess, List.countP_append]
      simp [List.countP_cons]
    by_cases hw : w = newS.agent_name
    · have hp : pRun w newS = true := by
        unfold pRun
        simp [hrun, hw]
      have hc0w : st.sessions.countP (pRun w) = 0 := by
        rw [hw]
        exact hc0
      constructor
      · rw [happ, hp, hc0w]
        simp
      · rw [hA w, if_pos hw, happ, hp, hc0w]
        simp
    · have hp : pRun w newS = false := by
        unfold pRun
        have hb : (newS.agent_name == w) = false := by
          simp only [beq_eq_false_iff_ne, ne_eq]
          exact fun he => hw he.symm
        rw [hb]
        simp
      constructor
      · rw [happ, hp]
        simp only [Bool.false_eq_true, if_false, Nat.add_zero]
        exact (hInv w).1
      · rw [hA w, if_neg hw, happ, hp]
        simp only [Bool.false_eq_true, if_false, Nat.add_zero]
        exact (hInv w).2
  · show (st2.sessions.map (fun s => s.sid)).Nodup
    rw [hsess, List.map_append]
    simp only [List.map_cons, List.map_nil]
    rw [List.nodup_append]
    exact ⟨hnd, List.nodup_singleton _, by simpa [List.disjoint_singleton] using hfresh⟩

/-- Spawn preserves the invariant when the drawn session id is fresh. -/
theorem inv_spawn (env : GateEnv) (tokenOk : Bool) (requester : Option String)
    (req : SpawnReq) (conn cli : Bool) (sid tid : Nat) (now : ℚ) (st : RelayState)
    (hInv : SessionBusyInv st) (hnd : SidsNodup st)
    (hfresh : sid ∉ st.sessions.map (fun s => s.sid)) :
    SessionBusyInv (spawn_agent env tokenOk requester req conn cli sid tid now st).2
    ∧ SidsNodup (spawn_agent env tokenOk requester req conn cli sid tid now st).2 := by
  unfold spawn_agent
  split_ifs with g1 g2 g3 g4 g5 g6 g7 g8
  · exact ⟨hInv, hnd⟩
  · exact ⟨hInv, hnd⟩
  · exact ⟨hInv, hnd⟩
  · exact ⟨hInv, hnd⟩
  · exact ⟨hInv, hnd⟩
  · exact ⟨hInv, hnd⟩
  · refine inv_add_session st _ _ rfl hInv hnd hfresh rfl (by simpa using g5) ?_
    intro w
    show busyOf (markAgentBusy st.agents req.agent_name req.token_mint
      (agent_type_of req.job_type) now) w = _
    unfold busyOf
    rw [lookupAgent_markBusy]
    by_cases hw : w = req.agent_name <;> simp [hw, busyUpdate, agentBusy, busyOf]
  · exact ⟨hInv, hnd⟩
  · refine inv_add_session st _ _ rfl hInv hnd hfresh rfl (by simpa using g5) ?_
    intro w
    show busyOf (markAgentBusy st.agents req.agent_name req.token_mint
      (agent_type_of req.job_type) now) w = _
    unfold busyOf
    rw [lookupAgent_markBusy]
    by_cases hw : w = req.agent_name <;> simp [hw, busyUpdate, agentBusy, busyOf]

/-- The busy map after `_auto_release_agent` reads as a single-owner
release. -/
theorem busyOf_auto_release (A : List (String × AgentEntry)) (n w : String) :
    busyOf (auto_release A n) w = if w ∈ [n] then false else busyOf A w := by
  unfold auto_release busyOf
  rw [lookupAgent_setAgent]
  cases hf : lookupAgent A w with
  | none => simp
  | some e => by_cases hw : w = n <;> simp [hw, idleEntry]

/-- `setAgent` with a busy-preserving update keeps the busy map. -/
theorem busyOf_setAgent_busy_eq (A : List (String × AgentEntry)) (n : String)
    (f : AgentEntry → AgentEntry) (hf : ∀ e, (f e).busy = e.busy) (w : String) :
    busyOf (setAgent A n f) w = busyOf A w := by
  unfold busyOf
  rw [lookupAgent_setAgent]
  cases hf2 : lookupAgent A w with
  | none => simp
  | some e => by_cases hw : w = n <;> simp [hw, hf e]

/-- Manual release of a worker with no running session preserves the
invariant (this is the hypothesis the counterexample violates). -/
theorem inv_release (tokenOk : Bool) (requester : Option String) (name : String)
    (st : RelayState) (hInv : SessionBusyInv st) (hnd : SidsNodup st)
    (hcnt : runningCount st name = 0) :
    SessionBusyInv (release_agent tokenOk requester name st).2
    ∧ SidsNodup (release_agent tokenOk requester name st).2 := by
  unfold release_agent
  split_ifs with g1 g2 g3
  · exact ⟨hInv, hnd⟩
  · exact ⟨hInv, hnd⟩
  · exact ⟨hInv, hnd⟩
  · refine ⟨?_, hnd⟩
    intro w
    refine ⟨(hInv w).1, ?_⟩
    show busyOf (auto_release st.agents name) w = true ↔ 0 < runningCount st w
    rw [busyOf_auto_release]
    by_cases hw : w = name
    · rw [if_pos (by simp [hw])]
      subst hw
      rw [hcnt]
      simp
    · rw [if_neg (by simp [hw])]
      exact (hInv w).2

/-- Manager check-in preserves the invariant (it only refreshes a
timestamp). -/
theorem inv_checkin (tokenOk : Bool) (name : String) (now : ℚ) (st : RelayState)
    (hInv : SessionBusyInv st) (hnd : SidsNodup st) :
    SessionBusyInv (agent_checkin tokenOk name now st).2
    ∧ SidsNodup (agent_checkin tokenOk name now st).2 := by
  unfold agent_checkin
  split_ifs with g1 g2
  · exact ⟨hInv, hnd⟩
  · exact ⟨hInv, hnd⟩
  cases hL : lookupAgent st.agents name with
  | none => exact ⟨hInv, hnd⟩
  | some e =>
    dsimp only
    split_ifs with g3
    · exact ⟨hInv, hnd⟩
    · refine ⟨?_, hnd⟩
      intro w
      refine ⟨(hInv w).1, ?_⟩
      show busyOf (setAgent st.agents name (fun a => { a with last_checkin := some now })) w
          = true ↔ 0 < runningCount st w
      rw [busyOf_setAgent_busy_eq st.agents name
        (fun a => { a with last_checkin := some now }) (fun e => rfl) w]
      exact (hInv w).2

/-- Kill preserves the invariant: it terminalizes the unique running session
of the worker it releases. -/
theorem inv_kill (tokenOk : Bool) (requester : Option String) (sid : Nat) (now : ℚ)
    (st : RelayState) (hInv : SessionBusyInv st) (hnd : SidsNodup st) :
    SessionBusyInv (kill_agent_session tokenOk requester sid now st).2
    ∧ SidsNodup (kill_agent_session tokenOk requester sid now st).2 := by
  unfold kill_agent_session
  split_ifs with g1
  · exact ⟨hInv, hnd⟩
  cases hL : lookupSession st.sessions sid with
  | none => exact ⟨hInv, hnd⟩
  | some s =>
    dsimp only
    split_ifs with g2 g3
    · exact ⟨hInv, hnd⟩
    · exact ⟨hInv, hnd⟩
    · have hrun : s.status = "running" := not_ne_iff.mp g3
      have hmem : s ∈ st.sessions := List.mem_of_find?_eq_some hL
      have hsid : s.sid = sid := by simpa using List.find?_some hL
      have huniq : ∀ x ∈ st.sessions, (x.sid == sid) = true → x = s := by
        intro x hx hqx
        exact eq_of_sid_eq hnd hx hmem (by rw [beq_iff_eq.mp hqx, hsid])
      exact inv_step_terminalize st (auto_release st.agents s.agent_name)
        (fun x => x.sid == sid)
        (fun x => if x.sid = sid then { x with status := "killed", completed_at := some now } else x)
        [s.agent_name] hInv hnd
        (fun x hx hqx => by rw [huniq x hx hqx]; exact hrun)
        (fun x hx hqx => by
          dsimp only
          rw [if_pos (beq_iff_eq.mp hqx)]
          exact ⟨by simp, rfl⟩)
        (fun x hx hqx => by
          dsimp only
          rw [if_neg]
          simpa using hqx)
        (fun x => by by_cases h : x.sid = sid <;> simp [h])
        (fun x hx hqx => by rw [huniq x hx hqx]; exact List.mem_singleton.mpr rfl)
        (fun w hw => ⟨s, hmem, by rw [beq_iff_eq]; exact hsid, (List.mem_singleton.mp hw).symm⟩)
        (fun w => busyOf_auto_release st.agents s.agent_name w)

/-- Result handling preserves the invariant when the result names a session
still running and carries one of the vessel's terminal statuses. -/
theorem inv_result (tid : Nat) (status : String) (res : Option String)
    (osid : Option Nat) (now : ℚ) (st : RelayState)
    (hInv : SessionBusyInv st) (hnd : SidsNodup st)
    (hst : status ≠ "running")
    (hses : ∀ s ∈ st.sessions, osid = some s.sid → s.status = "running") :
    SessionBusyInv (receive_result_step tid status res osid now st)
    ∧ SidsNodup (receive_result_step tid status res osid now st) := by
  unfold receive_result_step
  by_cases g1 : st.tasksMem.any (fun p => p.1 == tid) = true
  · rw [if_pos g1]
    dsimp only
    cases osid with
    | none => exact ⟨hInv, hnd⟩
    | some sid =>
      dsimp only
      cases hL : lookupSession st.sessions sid with
      | none => exact ⟨hInv, hnd⟩
      | some s =>
        have hmem : s ∈ st.sessions := List.mem_of_find?_eq_some hL
        have hsid : s.sid = sid := by simpa using List.find?_some hL
        have hrun : s.status = "running" := hses s hmem (by rw [hsid])
        have huniq : ∀ x ∈ st.sessions, (x.sid == sid) = true → x = s := by
          intro x hx hqx
          exact eq_of_sid_eq hnd hx hmem (by rw [beq_iff_eq.mp hqx, hsid])
        exact inv_step_terminalize st (auto_release st.agents s.agent_name)
          (fun x => x.sid == sid)
          (fun x => if x.sid = sid then
            { x with status := status, completed_at := some now, result := res } else x)
          [s.agent_name] hInv hnd
          (fun x hx hqx => by rw [huniq x hx hqx]; exact hrun)
          (fun x hx hqx => by
            dsimp only
            rw [if_pos (beq_iff_eq.mp hqx)]
            exact ⟨hst, rfl⟩)
          (fun x hx hqx => by
            dsimp only
            rw [if_neg]
            simpa using hqx)
          (fun x => by by_cases h : x.sid = sid <;> simp [h])
          (fun x hx hqx => by rw [huniq x hx hqx]; exact List.mem_singleton.mpr rfl)
          (fun w hw => ⟨s, hmem, by rw [beq_iff_eq]; exact hsid, (List.mem_singleton.mp hw).symm⟩)
          (fun w => busyOf_auto_release st.agents s.agent_name w)
  · rw [if_neg g1]
    exact ⟨hInv, hnd⟩

/-- Busy map after `releaseNames` reads as a membership test. -/
theorem busyOf_releaseNames (A : List (String × AgentEntry)) (ns : List String)
    (w : String) :
    busyOf (releaseNames A ns) w = if w ∈ ns then false else busyOf A w := by
  unfold busyOf
  rw [lookupAgent_releaseNames]
  by_cases hw : w ∈ ns
  · rw [if_pos hw]
    cases lookupAgent A w <;> simp [List.elem_iff.mpr hw, idleEntry, hw]
  · rw [if_neg hw]
    have hnc : ns.contains w = false := by
      cases hc : ns.contains w
      · rfl
      · exact absurd (List.elem_iff.mp hc) hw
    cases lookupAgent A w <;> simp [hnc, hw]

/-- The session-timeout phase of the watchdog preserves the invariant. -/
theorem inv_timeout_sweep (sto now : ℚ) (st : RelayState)
    (hInv : SessionBusyInv st) (hnd : SidsNodup st) :
    SessionBusyInv (timeout_sweep sto now st)
    ∧ SidsNodup (timeout_sweep sto now st) := by
  unfold timeout_sweep
  exact inv_step_terminalize st _ (timedOutSel sto now)
    (fun s => if timedOutSel sto now s then
      { s with status := "timed_out", completed_at := some now } else s)
    ((st.sessions.filter (timedOutSel sto now)).map (fun s => s.agent_name))
    hInv hnd
    (fun s hs hq => by
      unfold timedOutSel at hq
      simp only [Bool.and_eq_true, beq_iff_eq] at hq
      exact hq.1)
    (fun s hs hq => by dsimp only; rw [if_pos hq]; exact ⟨by simp, rfl⟩)
    (fun s hs hq => by dsimp only; rw [if_neg]; simp [hq])
    (fun s => by by_cases h : timedOutSel sto now s = true <;> simp [h])
    (fun s hs hq => List.mem_map.mpr ⟨s, List.mem_filter.mpr ⟨hs, hq⟩, rfl⟩)
    (fun w hw => by
      obtain ⟨s, hsf, hsw⟩ := List.mem_map.mp hw
      obtain ⟨hs, hq⟩ := List.mem_filter.mp hsf
      exact ⟨s, hs, hq, hsw⟩)
    (fun w => busyOf_releaseNames st.agents _ w)

/-- The orphan phase of the watchdog preserves the invariant. -/
theorem inv_orphan_sweep (connected : List String) (now : ℚ) (st : RelayState)
    (hInv : SessionBusyInv st) (hnd : SidsNodup st) :
    SessionBusyInv (orphan_sweep connected now st)
    ∧ SidsNodup (orphan_sweep connected now st) := by
  unfold orphan_sweep
  exact inv_step_terminalize st _ (orphanSel connected)
    (fun s => if orphanSel connected s then
      { s with status := "orphaned", completed_at := some now } else s)
    ((st.sessions.filter (orphanSel connected)).map (fun s => s.agent_name))
    hInv hnd
    (fun s hs hq => by
      unfold orphanSel at hq
      simp only [Bool.and_eq_true, beq_iff_eq] at hq
      exact hq.1.1)
    (fun s hs hq => by dsimp only; rw [if_pos hq]; exact ⟨by simp, rfl⟩)
    (fun s hs hq => by dsimp only; rw [if_neg]; simp [hq])
    (fun s => by by_cases h : orphanSel connected s = true <;> simp [h])
    (fun s hs hq => List.mem_map.mpr ⟨s, List.mem_filter.mpr ⟨hs, hq⟩, rfl⟩)
    (fun w hw => by
      obtain ⟨s, hsf, hsw⟩ := List.mem_map.mp hw
      obtain ⟨hs, hq⟩ := List.mem_filter.mp hsf
      exact ⟨s, hs, hq, hsw⟩)
    (fun w => busyOf_releaseNames st.agents _ w)

/-- The manager-timeout sweep preserves the invariant when every expired
manager has no running session. -/
theorem inv_manager_sweep (now : ℚ) (st : RelayState)
    (hInv : SessionBusyInv st) (hnd : SidsNodup st)
    (hok : ∀ p ∈ st.agents, managerExpired now p = true → runningCount st p.1 = 0) :
    SessionBusyInv (manager_timeout_sweep now st)
    ∧ SidsNodup (manager_timeout_sweep now st) := by
  refine ⟨?_, hnd⟩
  intro w
  refine ⟨(hInv w).1, ?_⟩
  show busyOf (st.agents.map (fun p => if managerExpired now p then (p.1, idleEntry) else p)) w
      = true ↔ 0 < runningCount st w
  unfold busyOf
  rw [lookupAgent_mapIf]
  cases hf : st.agents.find? (fun p => p.1 == w) with
  | none =>
    have hb : agentBusy st w = false := by
      unfold agentBusy lookupAgent
      rw [hf]
      rfl
    have hiff := (hInv w).2
    rw [hb] at hiff
    constructor
    · intro hc
      simp at hc
    · intro hp
      exact Bool.noConfusion (hiff.mpr hp)
  | some p0 =>
    have hp0w : p0.1 = w := by simpa using List.find?_some hf
    have hp0mem : p0 ∈ st.agents := List.mem_of_find?_eq_some hf
    by_cases hex : managerExpired now p0 = true
    · have hc0 : runningCount st w = 0 := by
        rw [← hp0w]
        exact hok p0 hp0mem hex
      rw [hc0]
      simp [hex, idleEntry]
    · have hb : agentBusy st w = p0.2.busy := by
        unfold agentBusy lookupAgent
        rw [hf]
        rfl
      have hiff := (hInv w).2
      rw [hb] at hiff
      simpa [hex] using hiff

/-- Submit and the vessel-channel send step do not touch sessions or
availability. -/
theorem inv_submit (tokenOk : Bool) (tid : Nat) (vid tty pl : String)
    (prio : Int) (tmo now : ℚ) (st : RelayState)
    (hInv : SessionBusyInv st) (hnd : SidsNodup st) :
    SessionBusyInv (submit_task tokenOk tid vid tty pl prio tmo now st)
    ∧ SidsNodup (submit_task tokenOk tid vid tty pl prio tmo now st) := by
  unfold submit_task
  split_ifs
  · exact ⟨hInv, hnd⟩
  · exact ⟨hInv, hnd⟩

theorem inv_send (st : RelayState)
    (hInv : SessionBusyInv st) (hnd : SidsNodup st) :
    SessionBusyInv (send_tasks_step st) ∧ SidsNodup (send_tasks_step st) := by
  unfold send_tasks_step
  cases st.queue
  · exact ⟨hInv, hnd⟩
  · exact ⟨hInv, hnd⟩

/-- All availability entries idle means no worker reads busy. -/
theorem busyOf_all_idle (A : List (String × AgentEntry))
    (h : ∀ p ∈ A, p.2.busy = false) (w : String) :
    busyOf A w = false := by
  unfold busyOf lookupAgent
  cases hf : A.find? (fun p => p.1 == w) with
  | none => rfl
  | some p => simpa using h p (List.mem_of_find?_eq_some hf)

/-- The startup state satisfies the single-activity invariant. -/
theorem sessionBusyInv_init : SessionBusyInv initState := by
  intro w
  constructor
  · show ([] : List Session).countP (pRun w) ≤ 1
    simp
  · constructor
    · intro hb
      have h0 : busyOf initState.agents w = false :=
        busyOf_all_idle initState.agents (by decide) w
      rw [agentBusy_eq] at hb
      rw [h0] at hb
      cases hb
    · intro hp
      have : runningCount initState w = 0 := rfl
      omega

/-- C3 (counterexample): the state reached by spawn(CP1); release(CP1);
spawn(CP1) — all three calls succeed against the code — carries two sessions
with status running for CP1, violating the claimed invariant: the manual
release idles the worker without terminating its running session, after
which a second spawn is admitted. -/
theorem C3_counterexample :
    Reachable doubleSpawnState ∧ ¬ SessionBusyInv doubleSpawnState := by
  constructor
  · show Reachable (step opSpawn2 (step opRelease (step opSpawn1 initState)))
    exact Reachable.step _ (Reachable.step _ (Reachable.step _ Reachable.init))
  · intro h
    have h1 := (h "CP1").1
    have h2 : runningCount doubleSpawnState "CP1" = 2 := by decide
    omega

/-- C3 (amended): the invariant — at most one running session per worker,
and busy iff some session runs — is preserved by spawn (with a fresh session
id), kill, check-in, task submit/send, result handling for a still-running
session with a terminal vessel status, the session-timeout and orphan
sweeps, and by releases of workers without a running session.  It is NOT an
invariant of all reachable states: the manual release endpoint, the
capital-flow auto-release, and the manager-timeout sweep can idle a worker
whose session is still running (see the counterexample), which is exactly
what the `OpOK` side conditions exclude. -/
theorem C3_invariant_preservation (o : Op) (st : RelayState)
    (hInv : SessionBusyInv st) (hnd : SidsNodup st) (hok : OpOK o st) :
    SessionBusyInv (step o st) ∧ SidsNodup (step o st) := by
  cases o with
  | spawn env tokenOk requester req conn cli sid tid now =>
    exact inv_spawn env tokenOk requester req conn cli sid tid now st hInv hnd hok
  | releaseOp tokenOk requester name =>
    exact inv_release tokenOk requester name st hInv hnd hok
  | checkinOp tokenOk name now =>
    exact inv_checkin tokenOk name now st hInv hnd
  | killOp tokenOk requester sid now =>
    exact inv_kill tokenOk requester sid now st hInv hnd
  | submitOp tokenOk tid vid tty pl prio tmo now =>
    exact inv_submit tokenOk tid vid tty pl prio tmo now st hInv hnd
  | sendOp =>
    exact inv_send st hInv hnd
  | resultOp tid status res osid now =>
    exact inv_result tid status res osid now st hInv hnd hok.1 hok.2
  | timeoutSweepOp sto now =>
    exact inv_timeout_sweep sto now st hInv hnd
  | orphanSweepOp conn now =>
    exact inv_orphan_sweep conn now st hInv hnd
  | managerSweepOp now =>
    exact inv_manager_sweep now st hInv hnd hok

/-- C3 witness: the preservation theorem applied to the vessel send step at
the startup state. -/
theorem C3_invariant_preservation_witness :
    SessionBusyInv initState ∧ SidsNodup initState ∧ OpOK Op.sendOp initState
    ∧ (SessionBusyInv (step Op.sendOp initState) ∧ SidsNodup (step Op.sendOp initState)) :=
  ⟨sessionBusyInv_init, by simp [SidsNodup, initState], trivial,
    C3_invariant_preservation Op.sendOp initState sessionBusyInv_init
      (by simp [SidsNodup, initState]) trivial⟩

/-- A double-negated boolean is true. -/
theorem bool_of_not_not {b : Bool} (h : ¬((!b) = true)) : b = true := by
  cases b
  · simp at h
  · rfl

/-- `_gate_check_or_403` passes only for apex targets, apex requesters, or a
worker whose gate verifies. -/
theorem gate_check_or_403_cases (env : GateEnv) (a : String) (r : Option String)
    (h : gate_check_or_403 env a r = true) :
    a = "MsWednesday" ∨ r = some "MsWednesday" ∨ env.verify a = true := by
  unfold gate_check_or_403 at h
  split_ifs at h with h1 h2
  · exact Or.inl h1
  · exact Or.inr (Or.inl h2)
  · exact Or.inr (Or.inr h)

/-- C2 (counterexample): the release endpoint accepts a request with no
requester attribution for the non-apex worker CP1 although CP1 has no gate at
all (in an environment with no gate files, CP1's gate does not verify) —
release, unlike the wallet endpoints, performs no gate or requester check,
refuting the claim for the release write operation. -/
theorem C2_counterexample :
    (release_agent true none "CP1" initState).1 = EndpointResp.reply true
    ∧ (none : Option String) ≠ some "MsWednesday"
    ∧ "CP1" ≠ "MsWednesday"
    ∧ envNoGates.verify "CP1" = false := by
  refine ⟨by decide, by decide, by decide, by decide⟩

set_option maxHeartbeats 2000000 in
/-- C2 (amended): the four wallet write proxies (sell, buy, transfer,
transfer-SOL) admit a request only if the target worker is apex, the
requester is apex, or the target's gate verifies at the time of acceptance.
The remaining write endpoints named by the claim consult no gate and ignore
the requester: release succeeds for any requester exactly when the relay
token is valid and the worker is whitelisted and tracked; manager check-in
succeeds exactly when additionally the tracked worker's recorded type is
`manager` (any other tracked type gets a success-false reply); trade-manager
assignment succeeds exactly when the relay token is valid, the worker is
whitelisted and the state write succeeds — with no tracking requirement. -/
theorem C2_write_gate_quorum (env : GateEnv) (tokenOk : Bool) (requester : Option String)
    (agent_name to_agent token_mint : String) (percent amount_sol : ℚ) (amount : Option ℚ)
    (ipercent slippage_bps : Int) (apiTokenLoaded : Bool) (bucket : List ℚ) (now : ℚ) :
    (sell_admission env tokenOk requester agent_name token_mint percent slippage_bps
        apiTokenLoaded bucket now = .admitted →
      agent_name = "MsWednesday" ∨ requester = some "MsWednesday" ∨ env.verify agent_name = true)
    ∧ (buy_admission env tokenOk requester agent_name token_mint amount_sol slippage_bps
        apiTokenLoaded bucket now = .admitted →
      agent_name = "MsWednesday" ∨ requester = some "MsWednesday" ∨ env.verify agent_name = true)
    ∧ (transfer_admission env tokenOk requester agent_name to_agent token_mint amount ipercent
        apiTokenLoaded bucket now = .admitted →
      agent_name = "MsWednesday" ∨ requester = some "MsWednesday" ∨ env.verify agent_name = true)
    ∧ (transfer_sol_admission env tokenOk requester agent_name to_agent amount
        apiTokenLoaded bucket now = .admitted →
      agent_name = "MsWednesday" ∨ requester = some "MsWednesday" ∨ env.verify agent_name = true)
    ∧ (∀ st : RelayState, (release_agent tokenOk requester agent_name st).1 = .reply true ↔
        (tokenOk = true ∧ AGENT_WHITELIST.contains agent_name = true
          ∧ st.agents.any (fun p => p.1 == agent_name) = true))
    ∧ (∀ st : RelayState, ∀ t : ℚ,
        (agent_checkin tokenOk agent_name t st).1 = .reply true ↔
        (tokenOk = true ∧ AGENT_WHITELIST.contains agent_name = true
          ∧ ∃ e, lookupAgent st.agents agent_name = some e
              ∧ e.atype = some "manager"))
    ∧ (∀ writeOk : Bool,
        set_trade_manager tokenOk requester agent_name writeOk = .reply true ↔
        (tokenOk = true ∧ AGENT_WHITELIST.contains agent_name = true
          ∧ writeOk = true)) := by
  refine ⟨?_, ?_, ?_, ?_, ?_, ?_, ?_⟩
  · intro h
    unfold sell_admission at h
    split_ifs at h with g1 g2 g3 g4 g5 g6 g7 g8 g9 <;>
      try exact Admission.noConfusion h
    exact gate_check_or_403_cases env agent_name requester (bool_of_not_not g9)
  · intro h
    unfold buy_admission at h
    split_ifs at h with g1 g2 g3 g4 g5 g6 g7 g8 g9 <;>
      try exact Admission.noConfusion h
    exact gate_check_or_403_cases env agent_name requester (bool_of_not_not g9)
  · intro h
    unfold transfer_admission at h
    split_ifs at h with g1 g2 g3 g4 g5 g6 g7 g8 g9 g10 <;>
      try exact Admission.noConfusion h
    exact gate_check_or_403_cases env agent_name requester (bool_of_not_not g10)
  · intro h
    unfold transfer_sol_admission at h
    split_ifs at h with g1 g2 g3 g4 g5 g6 g7 g8 <;>
      try exact Admission.noConfusion h
    exact gate_check_or_403_cases env agent_name requester (bool_of_not_not g8)
  · intro st
    unfold release_agent
    split_ifs with r1 r2 r3 <;> simp_all
    exact fun x hx => r3 _ _ hx rfl
  · intro st t
    unfold agent_checkin
    split_ifs with c1 c2
    · constructor
      · intro h; simp at h
      · rintro ⟨ht, -⟩; rw [ht] at c1; simp at c1
    · constructor
      · intro h; simp at h
      · rintro ⟨-, hw, -⟩; rw [hw] at c2; simp at c2
    · cases hL : lookupAgent st.agents agent_name with
      | none =>
        dsimp only
        constructor
        · intro h; simp at h
        · rintro ⟨-, -, e, he, -⟩; cases he
      | some e =>
        dsimp only
        split_ifs with c3
        · constructor
          · intro h; simp at h
          · rintro ⟨-, -, e2, he2, hm⟩
            injection he2 with he3
            exact absurd (he3.symm ▸ hm) c3
        · constructor
          · intro _
            exact ⟨bool_of_not_not c1, bool_of_not_not c2, e, rfl, not_ne_iff.mp c3⟩
          · intro _; rfl
  · intro writeOk
    unfold set_trade_manager
    split_ifs with t1 t2 t3
    · constructor
      · intro h; simp at h
      · rintro ⟨ht, -⟩; rw [ht] at t1; simp at t1
    · constructor
      · intro h; simp at h
      · rintro ⟨-, hw, -⟩; rw [hw] at t2; simp at t2
    · constructor
      · intro h; simp at h
      · rintro ⟨-, -, hw⟩; rw [hw] at t3; simp at t3
    · exact ⟨fun _ => ⟨bool_of_not_not t1, bool_of_not_not t2, bool_of_not_not t3⟩,
        fun _ => rfl⟩

/-- C2 witness: an admitted sell by CP1 (own wallet, valid gate) implies the
quorum disjunction. -/
theorem C2_write_gate_quorum_witness :
    sell_admission envCP1 true (some "CP1") "CP1" validMint 50 75 true [] 0 = .admitted
    ∧ ("CP1" = "MsWednesday" ∨ some "CP1" = some "MsWednesday"
        ∨ envCP1.verify "CP1" = true) := by
  have h : sell_admission envCP1 true (some "CP1") "CP1" validMint 50 75 true [] 0 = .admitted := by
    decide
  exact ⟨h, (C2_write_gate_quorum envCP1 true (some "CP1") "CP1" "x" validMint 50 0 none 1 75
    true [] 0).1 h⟩

/-- C4: spawn creates its session and marks the worker busy only when the
four sequenced checks pass (apex requester, whitelisted non-apex worker,
verifying gate, worker not busy); whenever any of the four fails, the call
returns an error and the state is returned unchanged — no session record, no
queued task, no availability change. -/
theorem C4_spawn_checks (env : GateEnv) (tokenOk : Bool) (requester : Option String)
    (req : SpawnReq) (conn cli : Bool) (sid tid : Nat) (now : ℚ) (st : RelayState) :
    ((spawn_agent env tokenOk requester req conn cli sid tid now st).1 = .ok sid →
       requester = some "MsWednesday"
       ∧ AGENT_WHITELIST.contains req.agent_name = true
       ∧ req.agent_name ≠ "MsWednesday"
       ∧ env.verify req.agent_name = true
       ∧ agentBusy st req.agent_name = false)
    ∧ ((requester ≠ some "MsWednesday"
        ∨ AGENT_WHITELIST.contains req.agent_name = false
        ∨ req.agent_name = "MsWednesday"
        ∨ env.verify req.agent_name = false
        ∨ agentBusy st req.agent_name = true) →
       ∃ c, spawn_agent env tokenOk requester req conn cli sid tid now st = (.err c, st)) := by
  unfold spawn_agent
  split_ifs with g1 g2 g3 g4 g5 g6 g7 g8
  · exact ⟨fun h => by simp at h, fun _ => ⟨401, rfl⟩⟩
  · exact ⟨fun h => by simp at h, fun _ => ⟨403, rfl⟩⟩
  · exact ⟨fun h => by simp at h, fun _ => ⟨400, rfl⟩⟩
  · exact ⟨fun h => by simp at h, fun _ => ⟨403, rfl⟩⟩
  · exact ⟨fun h => by simp at h, fun _ => ⟨409, rfl⟩⟩
  · exact ⟨fun h => by simp at h, fun _ => ⟨503, rfl⟩⟩
  · have hreq : requester = some "MsWednesday" := not_ne_iff.mp g2
    have hg3 : req.agent_name ∈ AGENT_WHITELIST ∧ ¬(req.agent_name = "MsWednesday") := by
      simpa using g3
    have hcont : AGENT_WHITELIST.contains req.agent_name = true :=
      List.elem_eq_true_of_mem hg3.1
    have hver : env.verify req.agent_name = true := bool_of_not_not g4
    have hbusy : agentBusy st req.agent_name = false := by simpa using g5
    refine ⟨fun _ => ⟨hreq, hcont, hg3.2, hver, hbusy⟩, ?_⟩
    rintro (d | d | d | d | d)
    · exact absurd hreq d
    · rw [hcont] at d; cases d
    · exact absurd d hg3.2
    · rw [hver] at d; cases d
    · rw [hbusy] at d; cases d
  · exact ⟨fun h => by simp at h, fun _ => ⟨503, rfl⟩⟩
  · have hreq : requester = some "MsWednesday" := not_ne_iff.mp g2
    have hg3 : req.agent_name ∈ AGENT_WHITELIST ∧ ¬(req.agent_name = "MsWednesday") := by
      simpa using g3
    have hcont : AGENT_WHITELIST.contains req.agent_name = true :=
      List.elem_eq_true_of_mem hg3.1
    have hver : env.verify req.agent_name = true := bool_of_not_not g4
    have hbusy : agentBusy st req.agent_name = false := by simpa using g5
    refine ⟨fun _ => ⟨hreq, hcont, hg3.2, hver, hbusy⟩, ?_⟩
    rintro (d | d | d | d | d)
    · exact absurd hreq d
    · rw [hcont] at d; cases d
    · exact absurd d hg3.2
    · rw [hver] at d; cases d
    · rw [hbusy] at d; cases d

/-- C4 witness: a spawn by a non-apex (anonymous) requester fails and leaves
the state untouched. -/
theorem C4_spawn_checks_witness :
    ((none : Option String) ≠ some "MsWednesday"
      ∨ AGENT_WHITELIST.contains spawnReqCP1.agent_name = false
      ∨ spawnReqCP1.agent_name = "MsWednesday"
      ∨ envCP1.verify spawnReqCP1.agent_name = false
      ∨ agentBusy initState spawnReqCP1.agent_name = true)
    ∧ ∃ c, spawn_agent envCP1 true none spawnReqCP1 true true 1 101 0 initState
        = (.err c, initState) :=
  ⟨Or.inl (by decide),
    (C4_spawn_checks envCP1 true none spawnReqCP1 true true 1 101 0 initState).2
      (Or.inl (by decide))⟩

/-- C9 (counterexample): killing an already-killed session is indeed a
state-preserving no-op, but the call does not "return success": the reply
carries `success: False` (with an explanatory error message), refuting the
claim as stated.  The state is reachable (spawn CP1, kill the session, kill
again). -/
theorem C9_counterexample :
    Reachable killedSessionState
    ∧ (lookupSession killedSessionState.sessions 1).map (·.status) = some "killed"
    ∧ kill_agent_session true (some "MsWednesday") 1 6 killedSessionState
        = (.reply false, killedSessionState) := by
  refine ⟨?_, by decide, by decide⟩
  show Reachable (step (.killOp true (some "MsWednesday") 1 5) (step opSpawn1 initState))
  exact Reachable.step _ (Reachable.step _ Reachable.init)

/-- C9 (amended): killing a session that is not running (already terminal:
completed, timed_out, killed, error, orphaned, …) is an idempotent no-op: it
returns an HTTP 200 reply whose `success` field is `false` (naming the
current status), and leaves the session record, the availability registry and
all other state unchanged — so a repeated kill answers identically. -/
theorem C9_kill_not_running_noop (requester : Option String) (sid : Nat) (now : ℚ)
    (st : RelayState) (s : Session)
    (hfind : lookupSession st.sessions sid = some s)
    (hreq : requester = none ∨ requester = some "MsWednesday" ∨ requester = some s.agent_name)
    (hnr : s.status ≠ "running") :
    kill_agent_session true requester sid now st = (.reply false, st) := by
  unfold kill_agent_session
  rcases hreq with rfl | rfl | rfl <;> simp [hfind, hnr]

/-- C9 witness: the no-op applied to the killed session of
`killedSessionState`. -/
theorem C9_kill_not_running_noop_witness :
    lookupSession killedSessionState.sessions 1 = some killedSession1
    ∧ (some "MsWednesday" = (none : Option String)
        ∨ some "MsWednesday" = some "MsWednesday"
        ∨ some "MsWednesday" = some killedSession1.agent_name)
    ∧ killedSession1.status ≠ "running"
    ∧ kill_agent_session true (some "MsWednesday") 1 6 killedSessionState
        = (.reply false, killedSessionState) :=
  ⟨by decide, Or.inr (Or.inl rfl), by decide,
    C9_kill_not_running_noop (some "MsWednesday") 1 6 killedSessionState killedSession1
      (by decide) (Or.inr (Or.inl rfl)) (by decide)⟩

/-- With no matching key, the dictionary lookup misses. -/
theorem lookupTask_eq_none (l : List (Nat × TaskRec)) (k : Nat)
    (h : l.any (fun p => p.1 == k) = false) :
    lookupTask l k = none := by
  unfold lookupTask
  rw [List.find?_eq_none.mpr]
  · rfl
  · intro x hx hpx
    have hT : l.any (fun p => p.1 == k) = true := by
      simp only [List.any_eq_true]
      exact ⟨x, hx, hpx⟩
    rw [h] at hT
    cases hT

/-- Replacing the value under a present key is seen by the lookup. -/
theorem lookupTask_replace (l : List (Nat × TaskRec)) (k : Nat) (v : TaskRec)
    (h : l.any (fun p => p.1 == k) = true) :
    lookupTask (l.map (fun p => if p.1 = k then (k, v) else p)) k = some v := by
  induction l with
  | nil => simp at h
  | cons a t ih =>
    by_cases hak : a.1 = k
    · simp [lookupTask, List.find?_cons, hak]
    · have h2 : t.any (fun p => p.1 == k) = true := by
        rcases List.any_eq_true.mp h with ⟨x, hx, hpx⟩
        rcases List.mem_cons.mp hx with rfl | hxt
        · exact absurd (by simpa using hpx) hak
        · simp only [List.any_eq_true]
          exact ⟨x, hxt, hpx⟩
      simpa [lookupTask, List.find?_cons, hak] using ih h2

/-- `save_task`'s upsert is seen by the lookup. -/
theorem lookupTask_upsert (l : List (Nat × TaskRec)) (k : Nat) (v : TaskRec) :
    lookupTask (upsertTask l k v) k = some v := by
  unfold upsertTask
  by_cases h : l.any (fun p => p.1 == k) = true
  · rw [if_pos h]
    exact lookupTask_replace l k v h
  · rw [if_neg h]
    unfold lookupTask
    rw [find?_append_or]
    have hn : List.find? (fun p => p.1 == k) l = none := by
      have := lookupTask_eq_none l k (by simp only [Bool.not_eq_true] at h; exact h)
      unfold lookupTask at this
      cases hf : List.find? (fun p => p.1 == k) l
      · rfl
      · rw [hf] at this
        cases this
    rw [hn]
    simp [Option.or, List.find?]

/-- In-place status update under a key is seen by the lookup. -/
theorem lookupTask_mapTask (l : List (Nat × TaskRec)) (k : Nat) (f : TaskRec → TaskRec) :
    lookupTask (mapTask l k f) k = (lookupTask l k).map f := by
  induction l with
  | nil => rfl
  | cons a t ih =>
    by_cases hak : a.1 = k
    · simp [lookupTask, mapTask, List.find?_cons, hak]
    · simpa [lookupTask, mapTask, List.find?_cons, hak] using ih

/-- A present key yields a lookup hit. -/
theorem lookupTask_isSome_of_any (l : List (Nat × TaskRec)) (k : Nat)
    (h : l.any (fun p => p.1 == k) = true) :
    ∃ t, lookupTask l k = some t := by
  induction l with
  | nil => simp at h
  | cons a t ih =>
    by_cases hak : a.1 = k
    · exact ⟨a.2, by simp [lookupTask, List.find?_cons, hak]⟩
    · have h2 : t.any (fun p => p.1 == k) = true := by
        rcases List.any_eq_true.mp h with ⟨x, hx, hpx⟩
        rcases List.mem_cons.mp hx with rfl | hxt
        · exact absurd (by simpa using hpx) hak
        · simp only [List.any_eq_true]
          exact ⟨x, hxt, hpx⟩
      obtain ⟨v, hv⟩ := ih h2
      exact ⟨v, by simpa [lookupTask, List.find?_cons, hak] using hv⟩

/-- C8 (counterexample): after submitting task 7 and handing it to the vessel
channel, the in-memory record reads "sent" while the durable record still
reads "queued" — the queued→sent transition is not persisted (`_send_tasks`
never calls `save_task`), refuting the claim that every status transition is
persisted at the time of the transition. -/
theorem C8_counterexample :
    Reachable sentTaskState
    ∧ (lookupTask sentTaskState.tasksMem 7).map (·.status) = some "sent"
    ∧ (lookupTask sentTaskState.tasksDb 7).map (·.status) = some "queued" := by
  refine ⟨?_, by decide, by decide⟩
  show Reachable (step .sendOp (step (.submitOp true 7 "phone-01" "shell" "pl" 0 300 0) initState))
  exact Reachable.step _ (Reachable.step _ Reachable.init)

/-- C8 (amended): task submission and terminal result handling persist the
record at the time of the transition (memory and durable store agree on the
task afterwards), but the queued→sent transition is applied to the in-memory
record only: `_send_tasks` leaves the durable store entirely unchanged, so
the durable status stays "queued" until a result arrives. -/
theorem C8_persistence (st : RelayState) :
    (∀ task_id vid tty pl prio tmo now,
       lookupTask (submit_task true task_id vid tty pl prio tmo now st).tasksMem task_id
         = lookupTask (submit_task true task_id vid tty pl prio tmo now st).tasksDb task_id)
    ∧ (∀ task_id status res osid now,
       st.tasksMem.any (fun p => p.1 == task_id) = true →
       lookupTask (receive_result_step task_id status res osid now st).tasksMem task_id
         = lookupTask (receive_result_step task_id status res osid now st).tasksDb task_id)
    ∧ (send_tasks_step st).tasksDb = st.tasksDb := by
  refine ⟨?_, ?_, ?_⟩
  · intro task_id vid tty pl prio tmo now
    unfold submit_task
    simp only [Bool.not_true]
    rw [if_neg Bool.false_ne_true]
    rw [lookupTask_upsert, lookupTask_upsert]
  · intro task_id status res osid now hany
    obtain ⟨t0, ht0⟩ := lookupTask_isSome_of_any st.tasksMem task_id hany
    have hmem2 : lookupTask (mapTask st.tasksMem task_id
        (fun t => { t with status := status, result := res, completed_at := some now })) task_id
        = some { t0 with status := status, result := res, completed_at := some now } := by
      rw [lookupTask_mapTask, ht0]
      rfl
    unfold receive_result_step
    simp only [hany, if_true]
    rw [hmem2]
    cases osid with
    | none => simp only; rw [hmem2, lookupTask_upsert]
    | some sid =>
      cases hs : lookupSession st.sessions sid with
      | none => simp only [hs]; rw [hmem2, lookupTask_upsert]
      | some s => simp only [hs]; rw [hmem2, lookupTask_upsert]
  · unfold send_tasks_step
    cases st.queue <;> rfl

/-- C8 witness: the persistence statement at the state holding sent task 7. -/
theorem C8_persistence_witness :
    sentTaskState.tasksMem.any (fun p => p.1 == 7) = true
    ∧ lookupTask (receive_result_step 7 "completed" none none 1 sentTaskState).tasksMem 7
        = lookupTask (receive_result_step 7 "completed" none none 1 sentTaskState).tasksDb 7
    ∧ (send_tasks_step sentTaskState).tasksDb = sentTaskState.tasksDb :=
  ⟨by decide, (C8_persistence sentTaskState).2.1 7 "completed" none none 1 (by decide),
    (C8_persistence sentTaskState).2.2⟩

/-- C7: after 5 admitted trade requests for a non-apex worker all inside the
trailing 60-second window, the next request is rejected (429) and the bucket
is left as is; once some admitted timestamp has left the window, the next
request is admitted; the apex identity is never rate-limited. -/
theorem C7_trade_rate_limit (w : String) (b : List ℚ) (now later : ℚ)
    (hw : w ≠ "MsWednesday") (hlen : b.length = 5) :
    ((∀ ts ∈ b, now - 60 < ts) →
        check_trade_rate_limit w b now = ⟨false, b⟩)
    ∧ ((∃ ts ∈ b, ts ≤ later - 60) →
        (check_trade_rate_limit w b later).admitted = true)
    ∧ (∀ b2 n2, (check_trade_rate_limit "MsWednesday" b2 n2).admitted = true) := by
  refine ⟨?_, ?_, ?_⟩
  · intro hall
    have hfil : b.filter (fun ts => decide (now - 60 < ts)) = b :=
      List.filter_eq_self.mpr (fun a ha => by simpa using hall a ha)
    unfold check_trade_rate_limit rate_limit_check
    rw [if_neg hw]
    simp only [RATE_LIMIT_TRADES_WINDOW, RATE_LIMIT_TRADES_MAX, hfil, hlen]
    norm_num
  · rintro ⟨t0, ht0, hle⟩
    have hdrop : (fun ts => decide (later - 60 < ts)) t0 = false := by
      simp
      linarith
    have hlt : (b.filter (fun ts => decide (later - 60 < ts))).length < b.length :=
      length_filter_lt_of_mem ht0 hdrop
    unfold check_trade_rate_limit rate_limit_check
    rw [if_neg hw]
    simp only [RATE_LIMIT_TRADES_WINDOW, RATE_LIMIT_TRADES_MAX]
    rw [hlen] at hlt
    rw [if_neg (by omega)]
  · intro b2 n2
    simp [check_trade_rate_limit]

/-- C7 witness. -/
theorem C7_trade_rate_limit_witness :
    ("CP1" ≠ "MsWednesday") ∧ ([(1 : ℚ), 2, 3, 4, 5].length = 5) ∧
    (((∀ ts ∈ [(1 : ℚ), 2, 3, 4, 5], (30 : ℚ) - 60 < ts) →
        check_trade_rate_limit "CP1" [1, 2, 3, 4, 5] 30 = ⟨false, [1, 2, 3, 4, 5]⟩)
      ∧ ((∃ ts ∈ [(1 : ℚ), 2, 3, 4, 5], ts ≤ (123 : ℚ)/2 - 60) →
          (check_trade_rate_limit "CP1" [1, 2, 3, 4, 5] (123/2)).admitted = true)
      ∧ (∀ b2 n2, (check_trade_rate_limit "MsWednesday" b2 n2).admitted = true)) :=
  ⟨by decide, by decide,
    C7_trade_rate_limit "CP1" [1, 2, 3, 4, 5] 30 (123/2) (by decide) (by decide)⟩

/-- C10: a rejected trade request consumes no quota: the stored bucket is
exactly the pruned list (the rejected timestamp is not appended, and the
bucket stays a sublist of what was already admitted), and every later
request decides exactly as if the rejected call had never happened. -/
theorem C10_rejected_no_quota (w : String) (b : List ℚ) (now later : ℚ)
    (hw : w ≠ "MsWednesday") (hnl : now ≤ later)
    (hrej : (check_trade_rate_limit w b now).admitted = false) :
    (check_trade_rate_limit w b now).bucket
        = b.filter (fun ts => decide (now - RATE_LIMIT_TRADES_WINDOW < ts))
    ∧ ((check_trade_rate_limit w b now).bucket).Sublist b
    ∧ check_trade_rate_limit w ((check_trade_rate_limit w b now).bucket) later
        = check_trade_rate_limit w b later := by
  have hfe : b.filter (fun ts => decide (later - RATE_LIMIT_TRADES_WINDOW < ts))
      = (b.filter (fun ts => decide (now - RATE_LIMIT_TRADES_WINDOW < ts))).filter
          (fun ts => decide (later - RATE_LIMIT_TRADES_WINDOW < ts)) := by
    rw [List.filter_filter]
    refine (List.filter_congr ?_).symm
    intro a _
    by_cases hla : later - RATE_LIMIT_TRADES_WINDOW < a
    · have : now - RATE_LIMIT_TRADES_WINDOW < a := by
        unfold RATE_LIMIT_TRADES_WINDOW at hla ⊢
        linarith
      simp [hla, this]
    · simp [hla]
  have hb : (check_trade_rate_limit w b now).bucket
      = b.filter (fun ts => decide (now - RATE_LIMIT_TRADES_WINDOW < ts)) := by
    unfold check_trade_rate_limit rate_limit_check at hrej ⊢
    rw [if_neg hw] at hrej ⊢
    by_cases hc : RATE_LIMIT_TRADES_MAX ≤
        (b.filter (fun ts => decide (now - RATE_LIMIT_TRADES_WINDOW < ts))).length
    · simp only [hc, if_pos]
    · simp only [hc, if_neg, if_false] at hrej
      simp at hrej
  refine ⟨hb, ?_, ?_⟩
  · rw [hb]; exact List.filter_sublist b
  · rw [hb]
    unfold check_trade_rate_limit rate_limit_check
    rw [if_neg hw, if_neg hw, ← hfe]

/-- C10 witness. -/
theorem C10_rejected_no_quota_witness :
    ("CP1" ≠ "MsWednesday") ∧ ((30 : ℚ) ≤ 40)
    ∧ (check_trade_rate_limit "CP1" [1, 2, 3, 4, 5] 30).admitted = false
    ∧ ((check_trade_rate_limit "CP1" [1, 2, 3, 4, 5] 30).bucket
         = [1, 2, 3, 4, 5].filter (fun ts => decide ((30 : ℚ) - RATE_LIMIT_TRADES_WINDOW < ts))
       ∧ ((check_trade_rate_limit "CP1" [1, 2, 3, 4, 5] 30).bucket).Sublist [1, 2, 3, 4, 5]
       ∧ check_trade_rate_limit "CP1" ((check_trade_rate_limit "CP1" [1, 2, 3, 4, 5] 30).bucket) 40
           = check_trade_rate_limit "CP1" [1, 2, 3, 4, 5] 40) := by
  have hrej : (check_trade_rate_limit "CP1" [1, 2, 3, 4, 5] 30).admitted = false := by
    norm_num [check_trade_rate_limit, rate_limit_check, RATE_LIMIT_TRADES_WINDOW,
      RATE_LIMIT_TRADES_MAX, List.filter_cons, List.filter_nil]
    decide
  exact ⟨by decide, by norm_num, hrej,
    C10_rejected_no_quota "CP1" [1, 2, 3, 4, 5] 30 40 (by decide) (by norm_num) hrej⟩

end Vessel
